import Mathlib

/-!
# echo.C: socket handles and the multiplexing TCP server loop

A shallow embedding of `src/echo/echo.C`.

* `Fd` is the move-only descriptor wrapper.  Every operation returns, next to
  its result, the list of descriptors it passed to `::close`.
* Objects whose identity matters (`this != &o`) live in a store, a `List Fd`
  addressed by position.  `std::vector<Fd>` is such a store; `erase` and
  `push_back` are composed from the move operations of `Fd` the way the
  standard library composes them.
* The operating system is an oracle `OS`: each call is answered from the
  history of events so far, so results may depend on everything that happened
  before.  The server appends every system call and every output line to a
  trace.
* An `fd_set` has `FD_SETSIZE` bits: `FD_SET` and `FD_ISSET` are undefined for
  a descriptor outside it, and so is the iteration that executes one.
* `int` values are descriptors and return codes handed out by the kernel; they
  are modelled by `Int`.  Descriptors stay far below the largest `int`, so
  `max_sock + 1` is computed without wrap-around.
-/

namespace Echo

/-! ## Fd -/

/-- Class `Fd`: one data member, `int _fd = -1`. -/
structure Fd where
  _fd : Int := -1
deriving DecidableEq, Repr

/-- Conversion `explicit operator bool() const { return _fd >= 0; }`. -/
def Fd.valid (h : Fd) : Bool := decide (h._fd ≥ 0)

/-- Accessor `int get() const { return _fd; }`. -/
def Fd.get (h : Fd) : Int := h._fd

/-- Member `void reset()`: closes and empties a valid handle, does nothing otherwise.
The second component lists the descriptors handed to `::close`. -/
def Fd.reset (h : Fd) : Fd × List Int :=
  if h.valid then (⟨-1⟩, [h._fd]) else (h, [])

/-- Move constructor `Fd(Fd&& o) : _fd(o._fd) { o._fd = -1; }`.
Returns the new handle, the source afterwards, and the descriptors closed. -/
def Fd.move_construct (o : Fd) : Fd × Fd × List Int :=
  (⟨o._fd⟩, ⟨-1⟩, [])

/-- Move assignment `Fd& operator=(Fd&& o)` between the handles stored at
addresses `dst` (the object assigned to) and `o` of the store `mem`. -/
def Fd.move_assign (mem : List Fd) (dst o : Nat) : List Fd × List Int :=
  if dst ≠ o then
    match mem[dst]?, mem[o]? with
    | some t, some s =>
      let r := t.reset
      -- std::swap(_fd, o._fd)
      ((mem.set dst ⟨s._fd⟩).set o ⟨r.1._fd⟩, r.2)
    | _, _ => (mem, [])
  else (mem, [])

/-- Destructor `~Fd() { reset(); }`: the descriptors it closes. -/
def Fd.destroy (h : Fd) : List Int := h.reset.2

/-! ## std::vector<Fd> -/

/-- Algorithm `std::move(first, last, result)` on a vector: `count` move assignments
`v[dst] = std::move(v[dst+1])`, front to back. -/
def move_range : Nat → List Fd → Nat → List Fd × List Int
  | 0, v, _ => (v, [])
  | n + 1, v, dst =>
    let r := Fd.move_assign v dst (dst + 1)
    let r2 := move_range n r.1 (dst + 1)
    (r2.1, r.2 ++ r2.2)

/-- Call `sockets.erase(iter)` at position `pos`: the tail is move-assigned one slot
down, then the last element is destroyed.  The iterator returned designates the
same position. -/
def vector_erase (v : List Fd) (pos : Nat) : List Fd × List Int :=
  let r := move_range (v.length - (pos + 1)) v pos
  match r.1.getLast? with
  | some last => (r.1.dropLast, r.2 ++ last.destroy)
  | none => (r.1, r.2)

/-- Call `sockets.push_back(std::move(newsock))`: the new element is
move-constructed from `newsock`.  Returns the vector, `newsock` afterwards, and
the closes.  A reallocation move-constructs the old elements into the new
storage and destroys the emptied originals, which closes nothing. -/
def vector_push_back (v : List Fd) (newsock : Fd) : List Fd × Fd × List Int :=
  let r := Fd.move_construct newsock
  (v ++ [r.1], r.2.1, r.2.2)

/-! ## Operating system and trace -/

/-- What happened, in order: system calls with their return value, and lines
written to `std::cout`. -/
inductive Event
  | select (nfds : Int) (fds : List Int) (rc : Int)
  | accept (sock : Int) (rc : Int)
  | recv (sock : Int) (len : Nat) (rc : Int)
  | close (fd : Int)
  | out (line : String)
deriving DecidableEq, Repr

/-- Answer of `select`: return value, `errno`, and the descriptors that are
readable. -/
structure SelectRet where
  rc : Int
  errno : Int
  ready : List Int

/-- Answer of `accept`: return value and `errno`. -/
structure AcceptRet where
  rc : Int
  errno : Int

/-- Answer of `recv`: failure with `errno` (return value -1), or the bytes the
peer has available (an empty list is an orderly shutdown). -/
inductive RecvRet
  | error (errno : Int)
  | data (bytes : List Nat)

/-- The environment.  Every answer of a system call may depend on the whole
history.  `strerror` and the value of the macro `EINTR` belong to the platform;
`uninit` is the indeterminate content of a fresh stack array. -/
structure OS where
  select : List Event → Int → List Int → SelectRet
  accept : List Event → Int → AcceptRet
  recv : List Event → Int → Nat → RecvRet
  strerror : Int → String
  EINTR : Int
  uninit : Nat → Nat

/-- Function `die(fn)`: the `what()` text of the `std::runtime_error` it throws,
`errno` being the one left by the failed call. -/
def die (os : OS) (fn : String) (errno : Int) : String :=
  fn ++ " failed: " ++ os.strerror errno

/-! ## fd_set -/

/-- An `fd_set`: a fixed array of `FD_SETSIZE` bits, given by the list of
descriptors whose bit is set. -/
abbrev fd_set := List Int

/-- Value of the macro `FD_SETSIZE` of `<sys/select.h>`. -/
def FD_SETSIZE : Int := 1024

/-- The descriptor designates a bit of an `fd_set`. -/
def fd_ok (fd : Int) : Bool := decide (0 ≤ fd ∧ fd < FD_SETSIZE)

/-- Macro `FD_ZERO`. -/
def FD_ZERO : fd_set := []

/-- The set with the bit of `fd` switched on. -/
def set_bit (fd : Int) (fds : fd_set) : fd_set := fd :: fds

/-- The bit of `fd`. -/
def marked (fd : Int) (fds : fd_set) : Bool := fds.contains fd

/-- Macro `FD_SET(fd, &fds)`; `none` when `fd` is not below `FD_SETSIZE` (or is
negative): the macro then writes outside the set. -/
def FD_SET (fd : Int) (fds : fd_set) : Option fd_set :=
  if fd_ok fd then some (set_bit fd fds) else none

/-- Macro `FD_ISSET(fd, &fds)`; `none` when `fd` is not below `FD_SETSIZE` (or
is negative): the macro then reads outside the set. -/
def FD_ISSET (fd : Int) (fds : fd_set) : Option Bool :=
  if fd_ok fd then some (marked fd fds) else none

/-! ## The read buffer -/

/-- Value of `sizeof(buf)` for `char buf[4096]`. -/
def BUFSIZE : Nat := 4096

/-- The array `char buf[4096]` before anything is written to it. -/
def fresh_buf (os : OS) : List Nat := (List.range BUFSIZE).map os.uninit

/-- Return value of `recv(fd, buf, len, 0)`. -/
def recv_rc (r : RecvRet) (len : Nat) : Int :=
  match r with
  | .error _ => -1
  | .data bytes => ((bytes.take len).length : Int)

/-- Value of `errno` after `recv`. -/
def recv_errno (r : RecvRet) : Int :=
  match r with
  | .error e => e
  | .data _ => 0

/-- Content of the buffer after `recv(fd, buf, len, 0)`. -/
def recv_buf (r : RecvRet) (len : Nat) (buf : List Nat) : List Nat :=
  match r with
  | .error _ => buf
  | .data bytes => bytes.take len ++ buf.drop (bytes.take len).length

/-- The store `buf[i] = v`; `none` when `i` is not an index of the array. -/
def store (buf : List Nat) (i : Int) (v : Nat) : Option (List Nat) :=
  if 0 ≤ i ∧ i < (buf.length : Int) then some (buf.set i.toNat v) else none

/-- Text that `std::cout << buf` writes: the bytes before the first zero. -/
def c_str (buf : List Nat) : List Nat := buf.takeWhile (fun b => b ≠ 0)

/-- Bytes as text. -/
def text (bytes : List Nat) : String := String.mk (bytes.map Char.ofNat)

/-! ## tcp_server -/

/-- How control stands: inside `for(;;)`; left by the exception `die` threw
(the state is the one at the `throw`, before the locals are destroyed); after
a store outside `buf`; or the scan ran out of fuel. -/
inductive Status
  | running
  | thrown (what : String)
  | undefined
  | exhausted
deriving DecidableEq, Repr

/-- Locals of `tcp_server` that live across iterations, and the trace. -/
structure Srv where
  listen_sock : Fd
  sockets : List Fd
  trace : List Event

/-- Lines 128-136: `max_sock` and the readiness set handed to `select`; `none`
when an `FD_SET` is out of bounds. -/
def build_fds (listen_sock : Fd) (sockets : List Fd) : Option (Int × fd_set) :=
  let max_sock : Int := -1
  match FD_SET listen_sock.get FD_ZERO with
  | none => none
  | some fds =>
    let max_sock := max listen_sock.get max_sock
    sockets.foldl
      (fun acc s =>
        match acc with
        | none => none
        | some a =>
          match FD_SET s.get a.2 with
          | none => none
          | some f => some (max s.get a.1, f))
      (some (max_sock, fds))

/-- What lines 128-136 compute when every descriptor is below `FD_SETSIZE`. -/
def built (listen_sock : Fd) (sockets : List Fd) : Int × fd_set :=
  sockets.foldl (fun acc s => (max s.get acc.1, set_bit s.get acc.2))
    (max listen_sock.get (-1), set_bit listen_sock.get FD_ZERO)

/-- Every descriptor the iteration puts into the set is below `FD_SETSIZE`. -/
def fds_ok (listen_sock : Fd) (sockets : List Fd) : Bool :=
  fd_ok listen_sock.get && sockets.all (fun s => fd_ok s.get)

/-- Lines 145-150: the listening socket is ready. -/
def accept_branch (os : OS) (st : Srv) : Srv × Status :=
  let a := os.accept st.trace st.listen_sock.get
  let newsock : Fd := ⟨a.rc⟩
  let st1 : Srv := { st with trace := st.trace ++ [Event.accept st.listen_sock.get a.rc] }
  if !newsock.valid then
    (st1, Status.thrown (die os "accept()" a.errno))
  else
    let st2 : Srv :=
      { st1 with trace := st1.trace ++ [Event.out "Received new connection from client! "] }
    let r := vector_push_back st2.sockets newsock
    -- newsock goes out of scope
    ({ st2 with sockets := r.1, trace := st2.trace ++ (r.2.2 ++ r.2.1.destroy).map Event.close },
      Status.running)

/-- Lines 153-167: one pass through the body of the scan, the iterator at
position `i` designating `s`.  Returns the position of the iterator afterwards.
The test `FD_ISSET` is out of bounds for a descriptor not below `FD_SETSIZE`. -/
def scan_body (os : OS) (fds : fd_set) (st : Srv) (i : Nat) (s : Fd) : Srv × Status × Nat :=
  match FD_ISSET s.get fds with
  | none => (st, Status.undefined, i)
  | some false => (st, Status.running, i + 1)
  | some true =>
    let r := os.recv st.trace s.get BUFSIZE
    let rc := recv_rc r BUFSIZE
    let buf := recv_buf r BUFSIZE (fresh_buf os)
    let st1 : Srv := { st with trace := st.trace ++ [Event.recv s.get BUFSIZE rc] }
    if rc < 0 then
      (st1, Status.thrown (die os "recv()" (recv_errno r)), i)
    else if rc = 0 then
      let e := vector_erase st1.sockets i
      ({ st1 with sockets := e.1,
                  trace := st1.trace ++ e.2.map Event.close
                    ++ [Event.out "Closing client connection..."] },
        Status.running, i)
    else
      match store buf rc 0 with
      | none => (st1, Status.undefined, i)
      | some buf1 =>
        ({ st1 with trace := st1.trace
                      ++ [Event.out ("Received Msg: `" ++ text (c_str buf1) ++ "'")] },
          Status.running, i + 1)

/-- Lines 152-168: the scan `for(auto iter = sockets.begin(); iter != sockets.end();)`
from position `i`, at most `fuel` passes through the body. -/
def scan (os : OS) (fds : fd_set) : Nat → Srv → Nat → Srv × Status
  | 0, st, _ => (st, Status.exhausted)
  | fuel + 1, st, i =>
    match st.sockets[i]? with
    | none => (st, Status.running)
    | some s =>
      match scan_body os fds st i s with
      | (st1, Status.running, j) => scan os fds fuel st1 j
      | (st1, status, _) => (st1, status)

/-- Readiness set after `select` returned: only bits of ready descriptors stay. -/
def select_fds (sel : SelectRet) (fds : fd_set) : fd_set :=
  fds.filter (fun d => sel.ready.contains d)

/-- Lines 137-168: the iteration once `max_sock` and `fds` are built as `b`. -/
def iteration_body (os : OS) (st : Srv) (b : Int × fd_set) : Srv × Status :=
  let sel := os.select st.trace (b.1 + 1) b.2
  let fds := select_fds sel b.2
  let st1 : Srv := { st with trace := st.trace ++ [Event.select (b.1 + 1) b.2 sel.rc] }
  if sel.rc = -1 then
    if sel.errno = os.EINTR then (st1, Status.running)
    else (st1, Status.thrown (die os "select()" sel.errno))
  else
    let a :=
      match FD_ISSET st.listen_sock.get fds with
      | none => (st1, Status.undefined)
      | some ready => if ready then accept_branch os st1 else (st1, Status.running)
    match a.2 with
    | Status.running => scan os fds (a.1.sockets.length + 1) a.1 0
    | status => (a.1, status)

/-- Lines 126-168: one iteration of `for(;;)`. -/
def iteration (os : OS) (st : Srv) : Srv × Status :=
  match build_fds st.listen_sock st.sockets with
  | none => (st, Status.undefined)
  | some b => iteration_body os st b

/-- The answer of `select` in the iteration that starts in `st`, all
descriptors being below `FD_SETSIZE`. -/
def select_call (os : OS) (st : Srv) : SelectRet :=
  os.select st.trace ((built st.listen_sock st.sockets).1 + 1)
    (built st.listen_sock st.sockets).2

/-- The trace entry of that call. -/
def select_event (os : OS) (st : Srv) : Event :=
  Event.select ((built st.listen_sock st.sockets).1 + 1)
    (built st.listen_sock st.sockets).2 (select_call os st).rc

/-- The set `fds` once that call has returned. -/
def ready_fds (os : OS) (st : Srv) : fd_set :=
  select_fds (select_call os st) (built st.listen_sock st.sockets).2

/-- The iteration when every descriptor is below `FD_SETSIZE`: every `FD_SET`
and `FD_ISSET` on the listening socket is in bounds, so the set is `built` and
the test is the bit. -/
def iteration_in_range (os : OS) (st : Srv) : Srv × Status :=
  let sel := select_call os st
  let fds := ready_fds os st
  let st1 : Srv := { st with trace := st.trace ++ [select_event os st] }
  if sel.rc = -1 then
    if sel.errno = os.EINTR then (st1, Status.running)
    else (st1, Status.thrown (die os "select()" sel.errno))
  else
    let a := if marked st.listen_sock.get fds then accept_branch os st1 else (st1, Status.running)
    match a.2 with
    | Status.running => scan os fds (a.1.sockets.length + 1) a.1 0
    | status => (a.1, status)

/-- The loop `for(;;)`, observed for `n` iterations. -/
def tcp_server_loop (os : OS) : Nat → Srv → Srv × Status
  | 0, st => (st, Status.running)
  | n + 1, st =>
    match iteration os st with
    | (st1, Status.running) => tcp_server_loop os n st1
    | r => r

/-! ## main -/

/-- The four functions `main` can dispatch to. -/
inductive Callee
  | udp_server
  | tcp_server
  | udp_client
  | tcp_client
deriving DecidableEq, Repr

/-- How a callee ends: it returns, or an exception reaches `main`. -/
inductive Outcome
  | returned (rc : Int)
  | threw (what : String)

/-- How a run of `tcp_server` reaches `main`: the loop has no exit but the
exception thrown by `die`. -/
def Status.outcome : Status → Option Outcome
  | Status.thrown what => some (Outcome.threw what)
  | _ => none

/-- What `main` itself does: lines it prints, the calls it makes, its return value. -/
structure MainResult where
  out : List String
  calls : List (Callee × String)
  status : Int
deriving DecidableEq, Repr

/-- Function `usage()`: the two lines it prints. -/
def usage : List String := ["Usage: net MODE PORT", "MODE is u, t, U, or T."]

/-- A call inside the `try` block of `main`. -/
def call (run : Callee → String → Outcome) (c : Callee) (port : String) : MainResult :=
  match run c port with
  | Outcome.returned rc => ⟨[], [(c, port)], rc⟩
  | Outcome.threw what => ⟨["Caught Exception: " ++ what], [(c, port)], -1⟩

/-- Function `main(argc, argv)` with `argc = argv.length`; `argv[1][0]` is the
first character of the mode argument, the terminating zero when it is empty. -/
def main (argv : List String) (run : Callee → String → Outcome) : MainResult :=
  if argv.length < 3 then ⟨usage, [], -1⟩
  else
    let mode : Char := (argv.getD 1 "").data.headD (Char.ofNat 0)
    let port := argv.getD 2 ""
    if mode = 'U' then call run Callee.udp_server port
    else if mode = 'T' then call run Callee.tcp_server port
    else if mode = 'u' then call run Callee.udp_client port
    else if mode = 't' then call run Callee.tcp_client port
    else ⟨usage, [], -1⟩

/-! ## Sample environments -/

/-- A server with listening socket 3 and the peers 5, 6 and 8. -/
def sample_srv : Srv := ⟨⟨3⟩, [⟨5⟩, ⟨6⟩, ⟨8⟩], []⟩

/-- Descriptors 3, 5 and 6 are readable, `accept` hands out 7, peer 5 has shut
down, every other peer sends "hi". -/
def sample_os : OS where
  select := fun _ _ _ => ⟨3, 0, [3, 5, 6]⟩
  accept := fun _ _ => ⟨7, 0⟩
  recv := fun _ fd _ => if fd = 5 then RecvRet.data [] else RecvRet.data [104, 105]
  strerror := fun _ => "error"
  EINTR := 4
  uninit := fun _ => 170

/-- The readiness wait is interrupted by a signal. -/
def eintr_os : OS where
  select := fun _ _ _ => ⟨-1, 4, []⟩
  accept := fun _ _ => ⟨7, 0⟩
  recv := fun _ _ _ => RecvRet.data [104, 105]
  strerror := fun _ => "Interrupted system call"
  EINTR := 4
  uninit := fun _ => 170

/-- Peer 6 sends 4096 bytes, each the letter A, in one read. -/
def full_os : OS where
  select := fun _ _ _ => ⟨1, 0, [6]⟩
  accept := fun _ _ => ⟨7, 0⟩
  recv := fun _ _ _ => RecvRet.data (List.replicate 4096 65)
  strerror := fun _ => "error"
  EINTR := 4
  uninit := fun _ => 170

/-- Peers 5, 6 and 8 are readable; peer 5 has shut down, `recv` on peer 6
fails with `errno` 104. -/
def failing_os : OS where
  select := fun _ _ _ => ⟨3, 0, [5, 6, 8]⟩
  accept := fun _ _ => ⟨7, 0⟩
  recv := fun _ fd _ =>
    if fd = 5 then RecvRet.data [] else if fd = 6 then RecvRet.error 104
    else RecvRet.data [104, 105]
  strerror := fun _ => "Connection reset by peer"
  EINTR := 4
  uninit := fun _ => 170

/-! ## Trace queries -/

/-- Descriptors on which `recv` was called, in call order. -/
def recv_socks (evs : List Event) : List Int :=
  evs.filterMap (fun e => match e with
    | Event.recv fd _ _ => some fd
    | _ => none)

/-- Descriptors returned by `accept`, in call order. -/
def accepted (evs : List Event) : List Int :=
  evs.filterMap (fun e => match e with
    | Event.accept _ rc => some rc
    | _ => none)

/-- Descriptors handed to `::close`, in call order. -/
def closed (evs : List Event) : List Int :=
  evs.filterMap (fun e => match e with
    | Event.close fd => some fd
    | _ => none)

/-- Lines written to `std::cout`, in order. -/
def lines (evs : List Event) : List String :=
  evs.filterMap (fun e => match e with
    | Event.out l => some l
    | _ => none)

/-- Events a step added to the trace of `st`. -/
def new_events (st : Srv) (r : Srv) : List Event := r.trace.drop st.trace.length

/-- Trace property of a run `r` that added the events `evs` to the history
`base`: a `recv` that returned a negative value is the last event, the run has
ended by the exception `die("recv()")` throws for the `errno` of that call, and
the peer is still in the Connection Set. -/
def recv_failure_fatal (os : OS) (base evs : List Event) (r : Srv × Status) : Prop :=
  ∀ (a : List Event) (fd : Int) (len : Nat) (rc : Int) (post : List Event),
    evs = a ++ Event.recv fd len rc :: post → rc < 0 →
      post = []
      ∧ r.2 = Status.thrown (die os "recv()" (recv_errno (os.recv (base ++ a) fd BUFSIZE)))
      ∧ (⟨fd⟩ : Fd) ∈ r.1.sockets

/-- No `recv` among the events returned a negative value. -/
def no_failed_recv (evs : List Event) : Prop :=
  ∀ (fd : Int) (len : Nat) (rc : Int), Event.recv fd len rc ∈ evs → 0 ≤ rc

/-! ## Facts about Fd -/

theorem Fd.reset_closes (h : Fd) : h.reset.2 = if h.valid then [h._fd] else [] := by
  unfold Fd.reset
  by_cases hv : h.valid = true <;> simp [hv]

theorem Fd.reset_invalid (h : Fd) : h.reset.1.valid = false := by
  unfold Fd.reset
  by_cases hv : h.valid = true
  · rw [if_pos hv]; simp [Fd.valid]
  · rw [if_neg hv]; simpa using hv

theorem Fd.reset_reset (h : Fd) : h.reset.1.reset = (h.reset.1, []) := by
  have hv := Fd.reset_invalid h
  generalize h.reset.1 = k at hv
  simp [Fd.reset, hv]

theorem Fd.reset_fd_of_wf (h : Fd) (hwf : h._fd ≥ 0 ∨ h._fd = -1) : h.reset.1._fd = -1 := by
  unfold Fd.reset Fd.valid
  by_cases hv : h._fd ≥ 0
  · simp [hv]
  · rcases hwf with h1 | h1
    · exact absurd h1 hv
    · simp [hv, h1]

theorem Fd.move_assign_distinct (mem : List Fd) (dst src : Nat) (t s : Fd)
    (hne : dst ≠ src) (ht : mem[dst]? = some t) (hs : mem[src]? = some s) :
    Fd.move_assign mem dst src
      = ((mem.set dst ⟨s._fd⟩).set src ⟨t.reset.1._fd⟩, t.reset.2) := by
  unfold Fd.move_assign
  rw [if_pos hne, ht, hs]

theorem Fd.move_assign_adjacent (pre rest : List Fd) (a b : Fd) :
    Fd.move_assign (pre ++ a :: b :: rest) pre.length (pre.length + 1)
      = (pre ++ b :: a.reset.1 :: rest, a.reset.2) := by
  have h1 : (pre ++ a :: b :: rest)[pre.length]? = some a := by
    rw [List.getElem?_append_right (le_refl _)]; simp
  have h2 : (pre ++ a :: b :: rest)[pre.length + 1]? = some b := by
    rw [List.getElem?_append_right (by omega)]; simp
  rw [Fd.move_assign_distinct _ _ _ a b (by omega) h1 h2]
  simp [List.set_append]

/-! ## Facts about std::vector<Fd> -/

theorem move_range_spec (rest : List Fd) : ∀ (pre : List Fd) (a : Fd),
    move_range rest.length (pre ++ a :: rest) pre.length
      = (pre ++ rest ++ [if rest = [] then a else a.reset.1],
         if rest = [] then [] else a.reset.2) := by
  induction rest with
  | nil => intro pre a; simp [move_range]
  | cons b rest ih =>
    intro pre a
    have ih2 := ih (pre ++ [b]) a.reset.1
    simp only [List.length_append, List.length_singleton, List.append_assoc,
      List.singleton_append] at ih2
    simp only [List.length_cons, move_range, Fd.move_assign_adjacent, ih2, Fd.reset_reset]
    simp

/-- Erasing the element behind `pre` drops exactly that element and closes
exactly what its `reset` closes. -/
theorem vector_erase_spec (pre rest : List Fd) (a : Fd) :
    vector_erase (pre ++ a :: rest) pre.length = (pre ++ rest, a.reset.2) := by
  unfold vector_erase
  have hl : (pre ++ a :: rest).length - (pre.length + 1) = rest.length := by
    simp only [List.length_append, List.length_cons]; omega
  rw [hl, move_range_spec]
  simp only [List.getLast?_append, List.getLast?_singleton]
  by_cases hr : rest = []
  · simp [hr, Fd.destroy]
  · simp [hr, Fd.destroy, Fd.reset_reset]

/-! ## Claims about Fd -/

/-- C6: `Fd::reset` is idempotent.  For a handle that is valid (descriptor >= 0)
or empty (descriptor -1), `reset` closes the descriptor exactly once if the
handle is valid and closes nothing if it is empty, leaves the handle empty, and
a second `reset` closes nothing and leaves the handle as the first one left it. -/
theorem C6_reset_idempotent (h : Fd) (hwf : h._fd ≥ 0 ∨ h._fd = -1) :
    h.reset.2 = (if h.valid then [h._fd] else [])
    ∧ h.reset.1._fd = -1
    ∧ h.reset.1.valid = false
    ∧ h.reset.1.reset.2 = []
    ∧ h.reset.1.reset.1 = h.reset.1 := by
  refine ⟨Fd.reset_closes h, Fd.reset_fd_of_wf h hwf, Fd.reset_invalid h, ?_, ?_⟩
  · rw [Fd.reset_reset]
  · rw [Fd.reset_reset]

theorem C6_reset_idempotent_witness :
    ((⟨7⟩ : Fd)._fd ≥ 0 ∨ (⟨7⟩ : Fd)._fd = -1)
    ∧ (⟨7⟩ : Fd).reset.2 = (if (⟨7⟩ : Fd).valid then [(⟨7⟩ : Fd)._fd] else [])
    ∧ (⟨7⟩ : Fd).reset.1._fd = -1
    ∧ (⟨7⟩ : Fd).reset.1.valid = false
    ∧ (⟨7⟩ : Fd).reset.1.reset.2 = []
    ∧ (⟨7⟩ : Fd).reset.1.reset.1 = (⟨7⟩ : Fd).reset.1 :=
  ⟨by decide, C6_reset_idempotent ⟨7⟩ (by decide)⟩

/-- C7: moving an `Fd` transfers ownership and leaves the source empty.
Move construction from `s` yields a handle holding the descriptor of `s`,
leaves `s` holding -1 and closes nothing.  Move assignment to a distinct
target `t` (valid or empty, and not holding the descriptor of `s`) leaves the
target holding the descriptor of `s` and `s` holding -1, closes the descriptor
`t` held exactly once if `t` was valid and nothing else, and touches no other
handle.  Self move-assignment changes nothing and closes nothing. -/
theorem C7_move_transfers_ownership (mem : List Fd) (dst src : Nat) (t s : Fd)
    (ht : mem[dst]? = some t) (hs : mem[src]? = some s) (hne : dst ≠ src)
    (hwf : t._fd ≥ 0 ∨ t._fd = -1) (hown : t.valid = true → t._fd ≠ s._fd) :
    ((Fd.move_construct s).1._fd = s._fd
      ∧ (Fd.move_construct s).2.1._fd = -1
      ∧ (Fd.move_construct s).2.1.valid = false
      ∧ (Fd.move_construct s).2.2 = [])
    ∧ ((Fd.move_assign mem dst src).1[dst]? = some ⟨s._fd⟩
      ∧ (Fd.move_assign mem dst src).1[src]? = some ⟨-1⟩
      ∧ (Fd.move_assign mem dst src).2 = (if t.valid then [t._fd] else [])
      ∧ s._fd ∉ (Fd.move_assign mem dst src).2
      ∧ ∀ k, k ≠ dst → k ≠ src → (Fd.move_assign mem dst src).1[k]? = mem[k]?)
    ∧ (Fd.move_assign mem dst dst = (mem, [])
      ∧ Fd.move_assign mem src src = (mem, [])) := by
  have hd : dst < mem.length := by
    rcases Nat.lt_or_ge dst mem.length with h | h
    · exact h
    · rw [List.getElem?_eq_none h] at ht; cases ht
  have hsl : src < mem.length := by
    rcases Nat.lt_or_ge src mem.length with h | h
    · exact h
    · rw [List.getElem?_eq_none h] at hs; cases hs
  refine ⟨⟨rfl, rfl, rfl, rfl⟩, ?_, ?_⟩
  · rw [Fd.move_assign_distinct mem dst src t s hne ht hs]
    refine ⟨?_, ?_, Fd.reset_closes t, ?_, ?_⟩
    · simp [List.getElem?_set, hne, hd, Ne.symm hne]
    · simp [List.getElem?_set, hsl, Fd.reset_fd_of_wf t hwf]
    · rw [Fd.reset_closes]
      by_cases hv : t.valid = true
      · simpa [hv] using Ne.symm (hown hv)
      · simp [hv]
    · intro k hk1 hk2
      simp [List.getElem?_set, Ne.symm hk1, Ne.symm hk2]
  · simp [Fd.move_assign]

theorem C7_move_transfers_ownership_witness :
    ((Fd.move_construct ⟨5⟩).1._fd = (⟨5⟩ : Fd)._fd
      ∧ (Fd.move_construct ⟨5⟩).2.1._fd = -1
      ∧ (Fd.move_construct ⟨5⟩).2.1.valid = false
      ∧ (Fd.move_construct ⟨5⟩).2.2 = [])
    ∧ ((Fd.move_assign [⟨3⟩, ⟨5⟩] 0 1).1[0]? = some ⟨(⟨5⟩ : Fd)._fd⟩
      ∧ (Fd.move_assign [⟨3⟩, ⟨5⟩] 0 1).1[1]? = some ⟨-1⟩
      ∧ (Fd.move_assign [⟨3⟩, ⟨5⟩] 0 1).2 = (if (⟨3⟩ : Fd).valid then [(⟨3⟩ : Fd)._fd] else [])
      ∧ (⟨5⟩ : Fd)._fd ∉ (Fd.move_assign [⟨3⟩, ⟨5⟩] 0 1).2
      ∧ ∀ k, k ≠ 0 → k ≠ 1 → (Fd.move_assign [⟨3⟩, ⟨5⟩] 0 1).1[k]? = ([⟨3⟩, ⟨5⟩] : List Fd)[k]?)
    ∧ (Fd.move_assign [⟨3⟩, ⟨5⟩] 0 0 = ([⟨3⟩, ⟨5⟩], [])
      ∧ Fd.move_assign [⟨3⟩, ⟨5⟩] 1 1 = ([⟨3⟩, ⟨5⟩], [])) :=
  C7_move_transfers_ownership [⟨3⟩, ⟨5⟩] 0 1 ⟨3⟩ ⟨5⟩ rfl rfl (by decide) (by decide) (by decide)


/-! ## Facts about the read buffer -/

theorem fresh_buf_length (os : OS) : (fresh_buf os).length = BUFSIZE := by
  simp [fresh_buf]

theorem takeWhile_terminated (B rest : List Nat) :
    (B ++ 0 :: rest).takeWhile (fun b => b ≠ 0) = B.takeWhile (fun b => b ≠ 0) := by
  induction B with
  | nil => simp
  | cons b B ih =>
    by_cases hb : b = 0
    · simp [hb]
    · simpa [List.takeWhile_cons, hb] using ih

theorem c_str_no_zero (B : List Nat) (h : ∀ b ∈ B, b ≠ 0) : c_str B = B := by
  unfold c_str
  rw [List.takeWhile_eq_self_iff]
  intro b hb
  simpa using h b hb

/-- A read shorter than the buffer: the terminator fits, and the text printed
is the received bytes up to their first zero. -/
theorem store_short (B junk : List Nat) (hj : junk.length = BUFSIZE) (hB : B.length < BUFSIZE) :
    ∃ buf1, store (recv_buf (RecvRet.data B) BUFSIZE junk) (recv_rc (RecvRet.data B) BUFSIZE) 0
        = some buf1 ∧ c_str buf1 = c_str B := by
  have ht : B.take BUFSIZE = B := List.take_of_length_le (Nat.le_of_lt hB)
  have hd : ∃ x rest, junk.drop B.length = x :: rest := by
    cases hjd : junk.drop B.length with
    | nil =>
      have := congrArg List.length hjd
      simp only [List.length_drop, List.length_nil] at this
      omega
    | cons x rest => exact ⟨x, rest, rfl⟩
  obtain ⟨x, rest, hx⟩ := hd
  refine ⟨B ++ 0 :: rest, ?_, ?_⟩
  · unfold store recv_buf recv_rc
    simp only [ht, hx]
    rw [if_pos]
    · simp [List.set_append]
    · constructor
      · exact Int.natCast_nonneg _
      · simp only [List.length_append, List.length_cons]; omega
  · unfold c_str
    exact takeWhile_terminated B rest

/-- A read that fills the buffer: the terminator index is the array size. -/
theorem store_full (B junk : List Nat) (hj : junk.length = BUFSIZE) (hB : BUFSIZE ≤ B.length) :
    recv_rc (RecvRet.data B) BUFSIZE = (BUFSIZE : Int)
    ∧ (recv_buf (RecvRet.data B) BUFSIZE junk).length = BUFSIZE
    ∧ store (recv_buf (RecvRet.data B) BUFSIZE junk) (recv_rc (RecvRet.data B) BUFSIZE) 0 = none := by
  have hl : (B.take BUFSIZE).length = BUFSIZE := by
    rw [List.length_take]; omega
  have h1 : recv_rc (RecvRet.data B) BUFSIZE = (BUFSIZE : Int) := by
    simp [recv_rc, hl]
  have h2 : (recv_buf (RecvRet.data B) BUFSIZE junk).length = BUFSIZE := by
    simp only [recv_buf, List.length_append, List.length_drop, hl, hj]; omega
  refine ⟨h1, h2, ?_⟩
  unfold store
  rw [if_neg]
  rw [h1, h2]
  omega


/-! ## The body of the scan, case by case -/

theorem FD_ISSET_ok (fd : Int) (fds : fd_set) (hok : fd_ok fd = true) :
    FD_ISSET fd fds = some (marked fd fds) := by
  simp [FD_ISSET, hok]

theorem FD_ISSET_none (fd : Int) (fds : fd_set) (hok : fd_ok fd = false) :
    FD_ISSET fd fds = none := by
  simp [FD_ISSET, hok]

theorem FD_ISSET_some (fd : Int) (fds : fd_set) (v : Bool) (h : FD_ISSET fd fds = some v) :
    fd_ok fd = true ∧ marked fd fds = v := by
  unfold FD_ISSET at h
  by_cases hok : fd_ok fd = true
  · rw [if_pos hok] at h
    exact ⟨hok, Option.some.inj h⟩
  · rw [if_neg hok] at h
    cases h

theorem scan_body_out_of_range (os : OS) (fds : fd_set) (st : Srv) (i : Nat) (s : Fd)
    (hok : fd_ok s.get = false) :
    scan_body os fds st i s = (st, Status.undefined, i) := by
  unfold scan_body
  rw [FD_ISSET_none _ _ hok]

theorem scan_body_not_ready (os : OS) (fds : fd_set) (st : Srv) (i : Nat) (s : Fd)
    (hok : fd_ok s.get = true) (hr : marked s.get fds = false) :
    scan_body os fds st i s = (st, Status.running, i + 1) := by
  unfold scan_body
  rw [FD_ISSET_ok _ _ hok, hr]

theorem scan_body_error (os : OS) (fds : fd_set) (st : Srv) (i : Nat) (s : Fd) (e : Int)
    (hok : fd_ok s.get = true)
    (hr : marked s.get fds = true) (hv : os.recv st.trace s.get BUFSIZE = RecvRet.error e) :
    scan_body os fds st i s
      = ({ st with trace := st.trace ++ [Event.recv s.get BUFSIZE (-1)] },
         Status.thrown (die os "recv()" e), i) := by
  unfold scan_body
  rw [FD_ISSET_ok _ _ hok, hr]
  simp [hv, recv_rc, recv_errno]

theorem scan_body_shutdown (os : OS) (fds : fd_set) (st : Srv) (i : Nat) (s : Fd)
    (hok : fd_ok s.get = true)
    (hr : marked s.get fds = true) (hv : os.recv st.trace s.get BUFSIZE = RecvRet.data []) :
    scan_body os fds st i s
      = ({ st with sockets := (vector_erase st.sockets i).1,
                   trace := st.trace ++ [Event.recv s.get BUFSIZE 0]
                     ++ (vector_erase st.sockets i).2.map Event.close
                     ++ [Event.out "Closing client connection..."] },
         Status.running, i) := by
  unfold scan_body
  rw [FD_ISSET_ok _ _ hok, hr]
  simp [hv, recv_rc]

theorem scan_body_message (os : OS) (fds : fd_set) (st : Srv) (i : Nat) (s : Fd) (B : List Nat)
    (hok : fd_ok s.get = true)
    (hr : marked s.get fds = true) (hv : os.recv st.trace s.get BUFSIZE = RecvRet.data B)
    (hne : B ≠ []) (hlen : B.length < BUFSIZE) :
    scan_body os fds st i s
      = ({ st with trace := st.trace ++ [Event.recv s.get BUFSIZE B.length]
                     ++ [Event.out ("Received Msg: `" ++ text (c_str B) ++ "'")] },
         Status.running, i + 1) := by
  obtain ⟨buf1, hst, hc⟩ := store_short B (fresh_buf os) (fresh_buf_length os) hlen
  have hrc : recv_rc (RecvRet.data B) BUFSIZE = (B.length : Int) := by
    simp [recv_rc, List.take_of_length_le (Nat.le_of_lt hlen)]
  have hpos : 0 < B.length := List.length_pos.mpr hne
  unfold scan_body
  rw [FD_ISSET_ok _ _ hok, hr]
  simp only [hv]
  rw [hst]
  simp only [hrc, hc]
  rw [if_neg (by omega), if_neg (by omega)]

theorem scan_body_overflow (os : OS) (fds : fd_set) (st : Srv) (i : Nat) (s : Fd) (B : List Nat)
    (hok : fd_ok s.get = true)
    (hr : marked s.get fds = true) (hv : os.recv st.trace s.get BUFSIZE = RecvRet.data B)
    (hlen : BUFSIZE ≤ B.length) :
    scan_body os fds st i s
      = ({ st with trace := st.trace ++ [Event.recv s.get BUFSIZE BUFSIZE] },
         Status.undefined, i) := by
  obtain ⟨hrc, _, hst⟩ := store_full B (fresh_buf os) (fresh_buf_length os) hlen
  unfold scan_body
  rw [FD_ISSET_ok _ _ hok, hr]
  simp only [hv]
  rw [hst]
  simp only [hrc]
  have h4 : (0 : Int) < (BUFSIZE : Int) := by decide
  rw [if_neg (by omega), if_neg (by omega)]

/-! ## The scan -/

theorem scan_end (os : OS) (fds : fd_set) (fuel : Nat) (st : Srv) (i : Nat)
    (h : st.sockets[i]? = none) : scan os fds (fuel + 1) st i = (st, Status.running) := by
  simp [scan, h]

theorem scan_step_running (os : OS) (fds : fd_set) (fuel : Nat) (st st1 : Srv) (i j : Nat) (s : Fd)
    (h : st.sockets[i]? = some s) (hb : scan_body os fds st i s = (st1, Status.running, j)) :
    scan os fds (fuel + 1) st i = scan os fds fuel st1 j := by
  simp [scan, h, hb]

theorem scan_step_stop (os : OS) (fds : fd_set) (fuel : Nat) (st st1 : Srv) (i j : Nat) (s : Fd)
    (status : Status) (h : st.sockets[i]? = some s)
    (hb : scan_body os fds st i s = (st1, status, j)) (hs : status ≠ Status.running) :
    scan os fds (fuel + 1) st i = (st1, status) := by
  cases status with
  | running => exact absurd rfl hs
  | thrown w => simp [scan, h, hb]
  | undefined => simp [scan, h, hb]
  | exhausted => simp [scan, h, hb]

theorem getElem?_zipper (pre rest : List Fd) (s : Fd) :
    (pre ++ s :: rest)[pre.length]? = some s := by
  rw [List.getElem?_append_right (le_refl _)]; simp

/-- Induction over the scan: the iterator stands behind `pre`, `rest` is still
to be visited, and the fuel covers `rest`. -/
theorem scan_ind (os : OS) (fds : fd_set)
    (P : Srv → List Fd → List Fd → Srv × Status → Prop)
    (h_end : ∀ st, P st st.sockets [] (st, Status.running))
    (h_skip : ∀ st pre s rest r, st.sockets = pre ++ s :: rest → fd_ok s.get = true → marked s.get fds = false →
      P st (pre ++ [s]) rest r → P st pre (s :: rest) r)
    (h_error : ∀ st pre s rest e, st.sockets = pre ++ s :: rest → marked s.get fds = true →
      os.recv st.trace s.get BUFSIZE = RecvRet.error e →
      P st pre (s :: rest)
        ({ st with trace := st.trace ++ [Event.recv s.get BUFSIZE (-1)] },
          Status.thrown (die os "recv()" e)))
    (h_shutdown : ∀ st pre s rest r, st.sockets = pre ++ s :: rest → fd_ok s.get = true → marked s.get fds = true →
      os.recv st.trace s.get BUFSIZE = RecvRet.data [] →
      P { st with sockets := pre ++ rest,
                  trace := st.trace ++ [Event.recv s.get BUFSIZE 0]
                    ++ s.reset.2.map Event.close
                    ++ [Event.out "Closing client connection..."] } pre rest r →
      P st pre (s :: rest) r)
    (h_message : ∀ st pre s rest B r, st.sockets = pre ++ s :: rest → fd_ok s.get = true → marked s.get fds = true →
      os.recv st.trace s.get BUFSIZE = RecvRet.data B → B ≠ [] → B.length < BUFSIZE →
      P { st with trace := st.trace ++ [Event.recv s.get BUFSIZE B.length]
                    ++ [Event.out ("Received Msg: `" ++ text (c_str B) ++ "'")] }
        (pre ++ [s]) rest r →
      P st pre (s :: rest) r)
    (h_range : ∀ st pre s rest, st.sockets = pre ++ s :: rest → fd_ok s.get = false →
      P st pre (s :: rest) (st, Status.undefined))
    (h_overflow : ∀ st pre s rest B, st.sockets = pre ++ s :: rest → marked s.get fds = true →
      os.recv st.trace s.get BUFSIZE = RecvRet.data B → BUFSIZE ≤ B.length →
      P st pre (s :: rest)
        ({ st with trace := st.trace ++ [Event.recv s.get BUFSIZE BUFSIZE] }, Status.undefined)) :
    ∀ (rest : List Fd) (fuel : Nat) (st : Srv) (pre : List Fd),
      st.sockets = pre ++ rest → rest.length < fuel →
      P st pre rest (scan os fds fuel st pre.length) := by
  intro rest
  induction rest with
  | nil =>
    intro fuel st pre hs hf
    obtain ⟨f, rfl⟩ : ∃ f, fuel = f + 1 := ⟨fuel - 1, by omega⟩
    have hp : pre = st.sockets := by simp [hs]
    have hn : st.sockets[pre.length]? = none := by
      rw [hp]; exact List.getElem?_eq_none (le_refl _)
    rw [scan_end os fds f st pre.length hn, hp]
    exact h_end st
  | cons s rest ih =>
    intro fuel st pre hs hf
    obtain ⟨f, rfl⟩ : ∃ f, fuel = f + 1 := ⟨fuel - 1, by omega⟩
    have hf2 : rest.length < f := by simp only [List.length_cons] at hf; omega
    have hg : st.sockets[pre.length]? = some s := by rw [hs]; exact getElem?_zipper pre rest s
    have hs2 : st.sockets = (pre ++ [s]) ++ rest := by simp [hs]
    have hl2 : (pre ++ [s]).length = pre.length + 1 := by simp
    by_cases hok : fd_ok s.get = true
    swap
    · have hok2 : fd_ok s.get = false := by simpa using hok
      rw [scan_step_stop os fds f st _ pre.length _ s _ hg
        (scan_body_out_of_range os fds st pre.length s hok2) (by simp)]
      exact h_range st pre s rest hs hok2
    by_cases hr : marked s.get fds = true
    · cases hv : os.recv st.trace s.get BUFSIZE with
      | error e =>
        rw [scan_step_stop os fds f st _ pre.length _ s _ hg
          (scan_body_error os fds st pre.length s e hok hr hv) (by simp)]
        exact h_error st pre s rest e hs hr hv
      | data B =>
        by_cases hB : B = []
        · subst hB
          have hb := scan_body_shutdown os fds st pre.length s hok hr hv
          rw [hs, vector_erase_spec] at hb
          rw [scan_step_running os fds f st _ pre.length _ s hg hb]
          exact h_shutdown st pre s rest _ hs hok hr hv (ih f _ pre rfl hf2)
        · by_cases hlen : B.length < BUFSIZE
          · rw [scan_step_running os fds f st _ pre.length _ s hg
              (scan_body_message os fds st pre.length s B hok hr hv hB hlen), ← hl2]
            exact h_message st pre s rest B _ hs hok hr hv hB hlen (ih f _ (pre ++ [s]) hs2 hf2)
          · rw [scan_step_stop os fds f st _ pre.length _ s _ hg
              (scan_body_overflow os fds st pre.length s B hok hr hv (by omega)) (by simp)]
            exact h_overflow st pre s rest B hs hr hv (by omega)
    · have hr2 : marked s.get fds = false := by simpa using hr
      rw [scan_step_running os fds f st _ pre.length _ s hg
        (scan_body_not_ready os fds st pre.length s hok hr2), ← hl2]
      exact h_skip st pre s rest _ hs hok hr2 (ih f st (pre ++ [s]) hs2 hf2)


theorem recv_socks_append (a b : List Event) : recv_socks (a ++ b) = recv_socks a ++ recv_socks b := by
  simp [recv_socks, List.filterMap_append]

theorem accepted_append (a b : List Event) : accepted (a ++ b) = accepted a ++ accepted b := by
  simp [accepted, List.filterMap_append]

theorem closed_append (a b : List Event) : closed (a ++ b) = closed a ++ closed b := by
  simp [closed, List.filterMap_append]

@[simp] theorem recv_socks_nil : recv_socks [] = [] := rfl
@[simp] theorem recv_socks_recv (fd : Int) (n : Nat) (rc : Int) (l : List Event) :
    recv_socks (Event.recv fd n rc :: l) = fd :: recv_socks l := rfl
@[simp] theorem recv_socks_out (x : String) (l : List Event) :
    recv_socks (Event.out x :: l) = recv_socks l := rfl
@[simp] theorem recv_socks_close (fd : Int) (l : List Event) :
    recv_socks (Event.close fd :: l) = recv_socks l := rfl
@[simp] theorem recv_socks_accept (fd rc : Int) (l : List Event) :
    recv_socks (Event.accept fd rc :: l) = recv_socks l := rfl
@[simp] theorem recv_socks_select (n : Int) (f : List Int) (rc : Int) (l : List Event) :
    recv_socks (Event.select n f rc :: l) = recv_socks l := rfl

@[simp] theorem accepted_nil : accepted [] = [] := rfl
@[simp] theorem accepted_recv (fd : Int) (n : Nat) (rc : Int) (l : List Event) :
    accepted (Event.recv fd n rc :: l) = accepted l := rfl
@[simp] theorem accepted_out (x : String) (l : List Event) :
    accepted (Event.out x :: l) = accepted l := rfl
@[simp] theorem accepted_close (fd : Int) (l : List Event) :
    accepted (Event.close fd :: l) = accepted l := rfl
@[simp] theorem accepted_accept (fd rc : Int) (l : List Event) :
    accepted (Event.accept fd rc :: l) = rc :: accepted l := rfl
@[simp] theorem accepted_select (n : Int) (f : List Int) (rc : Int) (l : List Event) :
    accepted (Event.select n f rc :: l) = accepted l := rfl

@[simp] theorem lines_nil : lines [] = [] := rfl
@[simp] theorem lines_recv (fd : Int) (n : Nat) (rc : Int) (l : List Event) :
    lines (Event.recv fd n rc :: l) = lines l := rfl
@[simp] theorem lines_out (x : String) (l : List Event) :
    lines (Event.out x :: l) = x :: lines l := rfl
@[simp] theorem lines_close (fd : Int) (l : List Event) :
    lines (Event.close fd :: l) = lines l := rfl
@[simp] theorem lines_accept (fd rc : Int) (l : List Event) :
    lines (Event.accept fd rc :: l) = lines l := rfl
@[simp] theorem lines_select (n : Int) (f : List Int) (rc : Int) (l : List Event) :
    lines (Event.select n f rc :: l) = lines l := rfl

theorem recv_socks_map_close (l : List Int) : recv_socks (l.map Event.close) = [] := by
  induction l with
  | nil => rfl
  | cons a l ih => simpa using ih

theorem accepted_map_close (l : List Int) : accepted (l.map Event.close) = [] := by
  induction l with
  | nil => rfl
  | cons a l ih => simpa using ih

theorem lines_map_close (l : List Int) : lines (l.map Event.close) = [] := by
  induction l with
  | nil => rfl
  | cons a l ih => simpa using ih

/-- What every scan does, whatever the answers of the peers: it only appends to
the trace, never accepts, calls `recv` on ready peers in vector order, keeps
the peers before the iterator, only drops peers, and ends within the fuel. -/
theorem scan_facts (os : OS) (fds : fd_set) (rest : List Fd) (fuel : Nat) (st : Srv)
    (pre : List Fd) (hs : st.sockets = pre ++ rest) (hf : rest.length < fuel) :
    ∃ evs kept, (scan os fds fuel st pre.length).1.trace = st.trace ++ evs
      ∧ (scan os fds fuel st pre.length).1.listen_sock = st.listen_sock
      ∧ (scan os fds fuel st pre.length).1.sockets = pre ++ kept
      ∧ kept.Sublist rest
      ∧ accepted evs = []
      ∧ recv_socks evs <+: ((rest.filter (fun s => marked s.get fds)).map Fd.get)
      ∧ ((scan os fds fuel st pre.length).2 = Status.running →
          recv_socks evs = (rest.filter (fun s => marked s.get fds)).map Fd.get)
      ∧ (scan os fds fuel st pre.length).2 ≠ Status.exhausted := by
  refine scan_ind os fds
    (fun st pre rest r => ∃ evs kept, r.1.trace = st.trace ++ evs
      ∧ r.1.listen_sock = st.listen_sock
      ∧ r.1.sockets = pre ++ kept
      ∧ kept.Sublist rest
      ∧ accepted evs = []
      ∧ recv_socks evs <+: ((rest.filter (fun s => marked s.get fds)).map Fd.get)
      ∧ (r.2 = Status.running →
          recv_socks evs = (rest.filter (fun s => marked s.get fds)).map Fd.get)
      ∧ r.2 ≠ Status.exhausted)
    ?_ ?_ ?_ ?_ ?_ ?_ ?_ rest fuel st pre hs hf
  · intro st
    exact ⟨[], [], by simp, rfl, by simp, List.Sublist.refl _, rfl, by simp,
      fun _ => by simp, by simp⟩
  · intro st pre s rest r _ _ hr ⟨evs, kept, h1, h2, h3, h4, h5, h6, h7, h8⟩
    refine ⟨evs, s :: kept, h1, h2, by simp [h3], h4.cons₂ s, h5, ?_, ?_, h8⟩
    · simpa [List.filter_cons, hr] using h6
    · simpa [List.filter_cons, hr] using h7
  · intro st pre s rest e _ hr _
    refine ⟨[Event.recv s.get BUFSIZE (-1)], s :: rest, rfl, rfl, by assumption,
      List.Sublist.refl _, rfl, ?_, by simp, by simp⟩
    simp [List.filter_cons, hr]
  · intro st pre s rest r _ _ hr _ ⟨evs, kept, h1, h2, h3, h4, h5, h6, h7, h8⟩
    refine ⟨[Event.recv s.get BUFSIZE 0] ++ s.reset.2.map Event.close
        ++ [Event.out "Closing client connection..."] ++ evs, kept, ?_, h2, h3,
      h4.cons s, ?_, ?_, ?_, h8⟩
    · simpa [List.append_assoc] using h1
    · simp [accepted_append, accepted_map_close, h5]
    · simp only [recv_socks_append, recv_socks_map_close, List.filter_cons, hr, if_true,
        List.map_cons]
      simpa using h6
    · intro hrun
      simp only [recv_socks_append, recv_socks_map_close, List.filter_cons, hr, if_true,
        List.map_cons]
      simpa using h7 hrun
  · intro st pre s rest B r _ _ hr _ _ _ ⟨evs, kept, h1, h2, h3, h4, h5, h6, h7, h8⟩
    refine ⟨[Event.recv s.get BUFSIZE B.length]
        ++ [Event.out ("Received Msg: `" ++ text (c_str B) ++ "'")] ++ evs, s :: kept,
      ?_, h2, by simp [h3], h4.cons₂ s, ?_, ?_, ?_, h8⟩
    · simpa [List.append_assoc] using h1
    · simp [accepted_append, h5]
    · simp only [recv_socks_append, List.filter_cons, hr, if_true, List.map_cons]
      simpa using h6
    · intro hrun
      simp only [recv_socks_append, List.filter_cons, hr, if_true, List.map_cons]
      simpa using h7 hrun
  · intro st pre s rest hs2 _
    refine ⟨[], s :: rest, ?_, rfl, hs2, List.Sublist.refl _, rfl, ?_, ?_, ?_⟩
    · simp
    · exact List.nil_prefix
    · intro h; exact absurd h (by simp)
    · simp
  · intro st pre s rest B _ hr _ _
    refine ⟨[Event.recv s.get BUFSIZE BUFSIZE], s :: rest, rfl, rfl, by assumption,
      List.Sublist.refl _, rfl, ?_, by simp, by simp⟩
    simp [List.filter_cons, hr]

/-- The scan as the iteration starts it, at the first peer. -/
theorem scan_facts_zero (os : OS) (fds : fd_set) (fuel : Nat) (st : Srv)
    (hf : st.sockets.length < fuel) :
    ∃ evs kept, (scan os fds fuel st 0).1.trace = st.trace ++ evs
      ∧ (scan os fds fuel st 0).1.listen_sock = st.listen_sock
      ∧ (scan os fds fuel st 0).1.sockets = kept
      ∧ kept.Sublist st.sockets
      ∧ accepted evs = []
      ∧ recv_socks evs <+: ((st.sockets.filter (fun s => marked s.get fds)).map Fd.get)
      ∧ ((scan os fds fuel st 0).2 = Status.running →
          recv_socks evs = (st.sockets.filter (fun s => marked s.get fds)).map Fd.get)
      ∧ (scan os fds fuel st 0).2 ≠ Status.exhausted := by
  simpa using scan_facts os fds st.sockets fuel st [] (List.nil_append _).symm hf

/-! ## Building the readiness set -/

theorem fold_build_none (socks : List Fd) :
    socks.foldl
      (fun (acc : Option (Int × fd_set)) s =>
        match acc with
        | none => none
        | some a =>
          match FD_SET s.get a.2 with
          | none => none
          | some f => some (max s.get a.1, f)) none = none := by
  induction socks with
  | nil => rfl
  | cons s socks ih => simpa using ih

theorem fold_build (socks : List Fd) : ∀ (m : Int) (f : fd_set),
    socks.foldl
      (fun (acc : Option (Int × fd_set)) s =>
        match acc with
        | none => none
        | some a =>
          match FD_SET s.get a.2 with
          | none => none
          | some f => some (max s.get a.1, f)) (some (m, f))
      = if socks.all (fun s => fd_ok s.get) then
          some (socks.foldl (fun acc s => (max s.get acc.1, set_bit s.get acc.2)) (m, f))
        else none := by
  induction socks with
  | nil => intro m f; simp
  | cons s socks ih =>
    intro m f
    by_cases hok : fd_ok s.get = true
    · simp only [List.foldl_cons, FD_SET, hok, if_true, List.all_cons, Bool.true_and]
      exact ih _ _
    · have hok2 : fd_ok s.get = false := by simpa using hok
      simp only [List.foldl_cons, FD_SET, hok2, List.all_cons, Bool.false_and]
      exact fold_build_none socks

theorem build_fds_eq (l : Fd) (socks : List Fd) :
    build_fds l socks = if fds_ok l socks then some (built l socks) else none := by
  unfold build_fds fds_ok built
  by_cases hok : fd_ok l.get = true
  · simp only [FD_SET, hok, if_true, Bool.true_and]
    exact fold_build socks _ _
  · have hok2 : fd_ok l.get = false := by simpa using hok
    simp [FD_SET, hok2]

theorem iteration_of_ok (os : OS) (st : Srv) (hok : fds_ok st.listen_sock st.sockets = true) :
    iteration os st = iteration_in_range os st := by
  have hl : fd_ok st.listen_sock.get = true := by
    unfold fds_ok at hok
    exact (Bool.and_eq_true _ _ ▸ hok).1
  unfold iteration
  rw [build_fds_eq, if_pos hok]
  unfold iteration_body iteration_in_range
  simp only [FD_ISSET_ok _ _ hl]
  rfl

theorem iteration_out_of_range (os : OS) (st : Srv)
    (hok : fds_ok st.listen_sock st.sockets = false) :
    iteration os st = (st, Status.undefined) := by
  unfold iteration
  rw [build_fds_eq, hok]
  rfl

/-! ## The accept branch and the iteration -/

theorem accept_branch_ok (os : OS) (st : Srv)
    (h : (os.accept st.trace st.listen_sock.get).rc ≥ 0) :
    accept_branch os st
      = ({ st with sockets := st.sockets ++ [⟨(os.accept st.trace st.listen_sock.get).rc⟩],
                   trace := st.trace
                     ++ [Event.accept st.listen_sock.get (os.accept st.trace st.listen_sock.get).rc,
                         Event.out "Received new connection from client! "] },
         Status.running) := by
  have hv : (⟨(os.accept st.trace st.listen_sock.get).rc⟩ : Fd).valid = true := by
    simp [Fd.valid, h]
  unfold accept_branch
  simp only [hv, vector_push_back, Fd.move_construct, Fd.destroy]
  simp [Fd.reset, Fd.valid]

theorem accept_branch_fail (os : OS) (st : Srv)
    (h : (os.accept st.trace st.listen_sock.get).rc < 0) :
    accept_branch os st
      = ({ st with trace := st.trace
                     ++ [Event.accept st.listen_sock.get (os.accept st.trace st.listen_sock.get).rc] },
         Status.thrown (die os "accept()" (os.accept st.trace st.listen_sock.get).errno)) := by
  have hv : (⟨(os.accept st.trace st.listen_sock.get).rc⟩ : Fd).valid = false := by
    simp [Fd.valid, h]
  unfold accept_branch
  simp [hv]

theorem iteration_select_failed (os : OS) (st : Srv)
    (hok : fds_ok st.listen_sock st.sockets = true) (h : (select_call os st).rc = -1) :
    iteration os st
      = if (select_call os st).errno = os.EINTR then
          ({ st with trace := st.trace ++ [select_event os st] }, Status.running)
        else
          ({ st with trace := st.trace ++ [select_event os st] },
            Status.thrown (die os "select()" (select_call os st).errno)) := by
  rw [iteration_of_ok os st hok]
  unfold iteration_in_range
  simp only [h, if_true]

theorem iteration_no_accept (os : OS) (st : Srv)
    (hok : fds_ok st.listen_sock st.sockets = true) (h : (select_call os st).rc ≠ -1)
    (hl : marked st.listen_sock.get (ready_fds os st) = false) :
    iteration os st
      = scan os (ready_fds os st) (st.sockets.length + 1)
          { st with trace := st.trace ++ [select_event os st] } 0 := by
  rw [iteration_of_ok os st hok]
  unfold iteration_in_range
  simp only [h, if_false, hl]
  rfl

theorem iteration_accept_ok (os : OS) (st : Srv)
    (hok : fds_ok st.listen_sock st.sockets = true) (h : (select_call os st).rc ≠ -1)
    (hl : marked st.listen_sock.get (ready_fds os st) = true)
    (ha : (os.accept (st.trace ++ [select_event os st]) st.listen_sock.get).rc ≥ 0) :
    iteration os st
      = scan os (ready_fds os st) (st.sockets.length + 1 + 1)
          { st with
            sockets := st.sockets
              ++ [⟨(os.accept (st.trace ++ [select_event os st]) st.listen_sock.get).rc⟩],
            trace := st.trace ++ [select_event os st]
              ++ [Event.accept st.listen_sock.get
                    (os.accept (st.trace ++ [select_event os st]) st.listen_sock.get).rc,
                  Event.out "Received new connection from client! "] } 0 := by
  have hb := accept_branch_ok os { st with trace := st.trace ++ [select_event os st] } ha
  rw [iteration_of_ok os st hok]
  unfold iteration_in_range
  simp only [h, if_false, hl, if_true, hb]
  simp

theorem iteration_accept_fail (os : OS) (st : Srv)
    (hok : fds_ok st.listen_sock st.sockets = true) (h : (select_call os st).rc ≠ -1)
    (hl : marked st.listen_sock.get (ready_fds os st) = true)
    (ha : (os.accept (st.trace ++ [select_event os st]) st.listen_sock.get).rc < 0) :
    iteration os st
      = ({ st with trace := st.trace ++ [select_event os st]
              ++ [Event.accept st.listen_sock.get
                    (os.accept (st.trace ++ [select_event os st]) st.listen_sock.get).rc] },
         Status.thrown (die os "accept()"
            (os.accept (st.trace ++ [select_event os st]) st.listen_sock.get).errno)) := by
  have hb := accept_branch_fail os { st with trace := st.trace ++ [select_event os st] } ha
  rw [iteration_of_ok os st hok]
  unfold iteration_in_range
  simp only [h, if_false, hl, if_true, hb]

/-- Every iteration appends to the trace, starting with its `select` call,
keeps the listening socket, holds afterwards only peers it held before or has
just accepted, and its scan ends within the fuel. -/
theorem iteration_facts_ok (os : OS) (st : Srv)
    (hok : fds_ok st.listen_sock st.sockets = true) :
    ∃ evs, (iteration os st).1.trace = st.trace ++ select_event os st :: evs
      ∧ (iteration os st).1.listen_sock = st.listen_sock
      ∧ (∀ x ∈ (iteration os st).1.sockets, x ∈ st.sockets ∨ x.get ∈ accepted evs)
      ∧ (iteration os st).2 ≠ Status.exhausted := by
  by_cases hsel : (select_call os st).rc = -1
  · rw [iteration_select_failed os st hok hsel]
    by_cases he : (select_call os st).errno = os.EINTR
    · rw [if_pos he]
      exact ⟨[], rfl, rfl, fun x hx => Or.inl hx, by simp⟩
    · rw [if_neg he]
      exact ⟨[], rfl, rfl, fun x hx => Or.inl hx, by simp⟩
  · by_cases hl : marked st.listen_sock.get (ready_fds os st) = true
    · rcases Int.lt_or_le (os.accept (st.trace ++ [select_event os st]) st.listen_sock.get).rc 0
        with ha | ha
      · rw [iteration_accept_fail os st hok hsel hl ha]
        exact ⟨[Event.accept st.listen_sock.get
          (os.accept (st.trace ++ [select_event os st]) st.listen_sock.get).rc], by simp, rfl,
          fun x hx => Or.inl hx, by simp⟩
      · rw [iteration_accept_ok os st hok hsel hl ha]
        obtain ⟨evs, kept, h1, h2, h3, h4, h5, _, _, h8⟩ :=
          scan_facts_zero os (ready_fds os st) (st.sockets.length + 1 + 1)
            { st with
              sockets := st.sockets
                ++ [⟨(os.accept (st.trace ++ [select_event os st]) st.listen_sock.get).rc⟩],
              trace := st.trace ++ [select_event os st]
                ++ [Event.accept st.listen_sock.get
                      (os.accept (st.trace ++ [select_event os st]) st.listen_sock.get).rc,
                    Event.out "Received new connection from client! "] } (by simp)
        refine ⟨[Event.accept st.listen_sock.get
            (os.accept (st.trace ++ [select_event os st]) st.listen_sock.get).rc,
          Event.out "Received new connection from client! "] ++ evs, ?_, h2, ?_, h8⟩
        · simpa [List.append_assoc] using h1
        · intro x hx
          rw [h3] at hx
          rcases List.mem_append.mp (h4.subset hx) with hx3 | hx3
          · exact Or.inl hx3
          · right
            have : x = ⟨(os.accept (st.trace ++ [select_event os st]) st.listen_sock.get).rc⟩ := by
              simpa using hx3
            simp [this, Fd.get, accepted_append]
    · have hl2 : marked st.listen_sock.get (ready_fds os st) = false := by simpa using hl
      rw [iteration_no_accept os st hok hsel hl2]
      obtain ⟨evs, kept, h1, h2, h3, h4, h5, _, _, h8⟩ :=
        scan_facts_zero os (ready_fds os st) (st.sockets.length + 1)
          { st with trace := st.trace ++ [select_event os st] } (by simp)
      refine ⟨evs, ?_, h2, ?_, h8⟩
      · simpa [List.append_assoc] using h1
      · intro x hx
        rw [h3] at hx
        exact Or.inl (h4.subset hx)

/-- Every iteration, in range or not, appends to the trace, keeps the listening
socket, holds afterwards only peers it held before or has just accepted, and
its scan ends within the fuel. -/
theorem iteration_facts (os : OS) (st : Srv) :
    ∃ evs, (iteration os st).1.trace = st.trace ++ evs
      ∧ (iteration os st).1.listen_sock = st.listen_sock
      ∧ (∀ x ∈ (iteration os st).1.sockets, x ∈ st.sockets ∨ x.get ∈ accepted evs)
      ∧ (iteration os st).2 ≠ Status.exhausted := by
  by_cases hok : fds_ok st.listen_sock st.sockets = true
  · obtain ⟨evs, h1, h2, h3, h4⟩ := iteration_facts_ok os st hok
    exact ⟨select_event os st :: evs, h1, h2, h3, h4⟩
  · have hok2 : fds_ok st.listen_sock st.sockets = false := by simpa using hok
    rw [iteration_out_of_range os st hok2]
    exact ⟨[], by simp, rfl, fun x hx => Or.inl hx, by simp⟩

/-- The Connection Set only ever holds valid handles: an iteration keeps
peers it had or appends the handle of a successful `accept`. -/
theorem iteration_sockets_valid (os : OS) (st : Srv)
    (hv : ∀ s ∈ st.sockets, s.valid = true) :
    ∀ s ∈ (iteration os st).1.sockets, s.valid = true := by
  by_cases hok : fds_ok st.listen_sock st.sockets = true
  swap
  · have hok2 : fds_ok st.listen_sock st.sockets = false := by simpa using hok
    rw [iteration_out_of_range os st hok2]
    exact hv
  by_cases hsel : (select_call os st).rc = -1
  · rw [iteration_select_failed os st hok hsel]
    by_cases he : (select_call os st).errno = os.EINTR
    · rw [if_pos he]; exact hv
    · rw [if_neg he]; exact hv
  · by_cases hl : marked st.listen_sock.get (ready_fds os st) = true
    · rcases Int.lt_or_le (os.accept (st.trace ++ [select_event os st]) st.listen_sock.get).rc 0
        with ha | ha
      · rw [iteration_accept_fail os st hok hsel hl ha]; exact hv
      · rw [iteration_accept_ok os st hok hsel hl ha]
        obtain ⟨evs, kept, _, _, h3, h4, _⟩ :=
          scan_facts_zero os (ready_fds os st) (st.sockets.length + 1 + 1)
            { st with
              sockets := st.sockets
                ++ [⟨(os.accept (st.trace ++ [select_event os st]) st.listen_sock.get).rc⟩],
              trace := st.trace ++ [select_event os st]
                ++ [Event.accept st.listen_sock.get
                      (os.accept (st.trace ++ [select_event os st]) st.listen_sock.get).rc,
                    Event.out "Received new connection from client! "] } (by simp)
        intro s hs
        rw [h3] at hs
        rcases List.mem_append.mp (h4.subset hs) with h | h
        · exact hv s h
        · have : s = ⟨(os.accept (st.trace ++ [select_event os st]) st.listen_sock.get).rc⟩ := by
            simpa using h
          rw [this]
          simpa [Fd.valid] using ha
    · have hl2 : marked st.listen_sock.get (ready_fds os st) = false := by simpa using hl
      rw [iteration_no_accept os st hok hsel hl2]
      obtain ⟨evs, kept, _, _, h3, h4, _⟩ :=
        scan_facts_zero os (ready_fds os st) (st.sockets.length + 1)
          { st with trace := st.trace ++ [select_event os st] } (by simp)
      intro s hs
      rw [h3] at hs
      exact hv s (h4.subset hs)

/-! ## built -/

theorem built_fold (socks : List Fd) : ∀ (m : Int) (f : fd_set),
    socks.foldl (fun acc s => (max s.get acc.1, set_bit s.get acc.2)) (m, f)
      = (socks.foldl (fun a s => max s.get a) m, (socks.map Fd.get).reverse ++ f) := by
  induction socks with
  | nil => intro m f; simp
  | cons s socks ih =>
    intro m f
    simp only [List.foldl_cons, List.map_cons, List.reverse_cons, List.append_assoc,
      List.singleton_append]
    rw [ih]
    rfl

theorem foldl_max_ge (socks : List Fd) : ∀ (m : Int),
    m ≤ socks.foldl (fun a s => max s.get a) m
    ∧ (∀ s ∈ socks, s.get ≤ socks.foldl (fun a s => max s.get a) m)
    ∧ (socks.foldl (fun a s => max s.get a) m = m
        ∨ socks.foldl (fun a s => max s.get a) m ∈ socks.map Fd.get) := by
  induction socks with
  | nil => intro m; simp
  | cons s socks ih =>
    intro m
    obtain ⟨h1, h2, h3⟩ := ih (max s.get m)
    simp only [List.foldl_cons, List.mem_cons, List.map_cons]
    refine ⟨le_trans (le_max_right _ _) h1, ?_, ?_⟩
    · intro x hx
      rcases hx with rfl | hx
      · exact le_trans (le_max_left _ _) h1
      · exact h2 x hx
    · rcases h3 with h3 | h3
      · rcases max_choice s.get m with hm | hm
        · right; left; rw [h3, hm]
        · left; rw [h3, hm]
      · right; right; exact h3

theorem built_spec (l : Fd) (socks : List Fd) :
    built l socks
      = (socks.foldl (fun a s => max s.get a) (max l.get (-1)),
         (socks.map Fd.get).reverse ++ [l.get]) := by
  unfold built
  rw [built_fold]
  rfl

theorem marked_built (l : Fd) (socks : List Fd) (d : Int) :
    marked d (built l socks).2 = true ↔ d = l.get ∨ d ∈ socks.map Fd.get := by
  rw [built_spec]
  simp only [marked, List.contains_eq_any_beq, List.any_eq_true, beq_iff_eq,
    List.mem_append, List.mem_reverse, List.mem_singleton]
  constructor
  · rintro ⟨x, hx | hx, rfl⟩
    · exact Or.inr hx
    · exact Or.inl hx
  · rintro (h | h)
    · exact ⟨l.get, Or.inr rfl, h⟩
    · exact ⟨d, Or.inl h, rfl⟩

/-! ## Error texts -/

theorem die_select (os : OS) (e : Int) : die os "select()" e = "select() failed: " ++ os.strerror e := by
  have h : ("select()" ++ " failed: " : String) = "select() failed: " := by decide
  unfold die
  rw [h]

theorem die_accept (os : OS) (e : Int) : die os "accept()" e = "accept() failed: " ++ os.strerror e := by
  have h : ("accept()" ++ " failed: " : String) = "accept() failed: " := by decide
  unfold die
  rw [h]

theorem die_recv (os : OS) (e : Int) : die os "recv()" e = "recv() failed: " ++ os.strerror e := by
  have h : ("recv()" ++ " failed: " : String) = "recv() failed: " := by decide
  unfold die
  rw [h]

/-! ## The loop -/

theorem loop_succ_running (os : OS) (n : Nat) (st st1 : Srv)
    (h : iteration os st = (st1, Status.running)) :
    tcp_server_loop os (n + 1) st = tcp_server_loop os n st1 := by
  simp [tcp_server_loop, h]

theorem loop_succ_stop (os : OS) (n : Nat) (st : Srv)
    (h : (iteration os st).2 ≠ Status.running) :
    tcp_server_loop os (n + 1) st = iteration os st := by
  unfold tcp_server_loop
  split
  · next st1 heq => rw [heq] at h; exact absurd rfl h
  · rfl

/-- From an empty Connection Set on, every handle in it is valid. -/
theorem loop_sockets_valid (os : OS) (n : Nat) : ∀ st : Srv,
    (∀ s ∈ st.sockets, s.valid = true) →
    ∀ s ∈ (tcp_server_loop os n st).1.sockets, s.valid = true := by
  induction n with
  | zero => intro st hv; exact hv
  | succ n ih =>
    intro st hv
    by_cases hrun : (iteration os st).2 = Status.running
    · have hit : iteration os st = ((iteration os st).1, Status.running) := by
        rw [← hrun]
      rw [loop_succ_running os n st _ hit]
      exact ih _ (iteration_sockets_valid os st hv)
    · rw [loop_succ_stop os n st hrun]
      exact iteration_sockets_valid os st hv

/-! ## Claims about one iteration -/

/-- The pair computed in bounds: largest descriptor and exact content. -/
theorem built_max_sock (st : Srv) (hl : st.listen_sock.valid = true) :
    (built st.listen_sock st.sockets).1 ∈ st.listen_sock.get :: st.sockets.map Fd.get
    ∧ (∀ d ∈ st.listen_sock.get :: st.sockets.map Fd.get,
        d ≤ (built st.listen_sock st.sockets).1)
    ∧ (∀ d, marked d (built st.listen_sock st.sockets).2 = true
        ↔ d = st.listen_sock.get ∨ d ∈ st.sockets.map Fd.get)
    ∧ (∀ d, marked d (built st.listen_sock st.sockets).2 = true
        → d < (built st.listen_sock st.sockets).1 + 1) := by
  have hv : st.listen_sock.get ≥ 0 := by simpa [Fd.valid] using hl
  obtain ⟨h1, h2, h3⟩ := foldl_max_ge st.sockets (max st.listen_sock.get (-1))
  have hm : max st.listen_sock.get (-1) = st.listen_sock.get := max_eq_left (by omega)
  have hfst : (built st.listen_sock st.sockets).1
      = st.sockets.foldl (fun a s => max s.get a) (max st.listen_sock.get (-1)) := by
    rw [built_spec]
  have hle : ∀ d ∈ st.listen_sock.get :: st.sockets.map Fd.get,
      d ≤ (built st.listen_sock st.sockets).1 := by
    intro d hd
    rw [hfst]
    rcases List.mem_cons.mp hd with rfl | hd
    · exact le_trans (le_max_left _ _) h1
    · obtain ⟨s, hs, rfl⟩ := List.mem_map.mp hd
      exact h2 s hs
  refine ⟨?_, hle, marked_built _ _, ?_⟩
  · rw [hfst]
    rcases h3 with h3 | h3
    · rw [h3, hm]; exact List.mem_cons_self _ _
    · exact List.mem_cons_of_mem _ h3
  · intro d hd
    have := hle d (by
      rcases (marked_built _ _ d).mp hd with h | h
      · rw [h]; exact List.mem_cons_self _ _
      · exact List.mem_cons_of_mem _ h)
    omega


theorem fds_ok_iff (l : Fd) (socks : List Fd) :
    fds_ok l socks = true ↔ ∀ d ∈ l.get :: socks.map Fd.get, fd_ok d = true := by
  simp [fds_ok]

/-- C10 as stated fails: with a peer holding descriptor 1024 the `FD_SET` of
line 134 is out of bounds, no readiness set holding that descriptor is built and
the iteration is undefined. -/
theorem C10_counterexample :
    build_fds ⟨3⟩ [⟨1024⟩] = none
    ∧ FD_SET 1024 [3] = none
    ∧ (iteration sample_os ⟨⟨3⟩, [⟨1024⟩], []⟩).2 = Status.undefined
    ∧ (iteration sample_os ⟨⟨3⟩, [⟨1024⟩], []⟩).1.trace = [] :=
  ⟨by decide, by decide, by decide, by decide⟩

/-- C10, amended: when the listening descriptor and every member's descriptor
are below `FD_SETSIZE` (and not negative), building the readiness set succeeds,
`max_sock` is the largest descriptor among the listening socket and the members
of the Connection Set, the set holds exactly these descriptors, the range
`max_sock + 1` exceeds each of them, and `select` is called with exactly this
range and this set. -/
theorem C10_max_sock (st : Srv) (hok : fds_ok st.listen_sock st.sockets = true) :
    ∃ b, build_fds st.listen_sock st.sockets = some b
      ∧ b.1 ∈ st.listen_sock.get :: st.sockets.map Fd.get
      ∧ (∀ d ∈ st.listen_sock.get :: st.sockets.map Fd.get, d ≤ b.1)
      ∧ (∀ d, FD_ISSET d b.2 = some true
          ↔ d = st.listen_sock.get ∨ d ∈ st.sockets.map Fd.get)
      ∧ (∀ d, FD_ISSET d b.2 = some true → d < b.1 + 1)
      ∧ ∀ os : OS, ∃ evs, (iteration os st).1.trace
          = st.trace ++ Event.select (b.1 + 1) b.2 (os.select st.trace (b.1 + 1) b.2).rc :: evs := by
  have hall := (fds_ok_iff _ _).mp hok
  have hl : st.listen_sock.valid = true := by
    have := hall st.listen_sock.get (List.mem_cons_self _ _)
    simp only [fd_ok, decide_eq_true_eq] at this
    simpa [Fd.valid, Fd.get] using this.1
  obtain ⟨h1, h2, h3, h4⟩ := built_max_sock st hl
  refine ⟨built st.listen_sock st.sockets, ?_, h1, h2, ?_, ?_, ?_⟩
  · rw [build_fds_eq, if_pos hok]
  · intro d
    constructor
    · intro hd
      exact (h3 d).mp (FD_ISSET_some _ _ _ hd).2
    · intro hd
      rw [FD_ISSET_ok _ _ (hall d (by
        rcases hd with h | h
        · rw [h]; exact List.mem_cons_self _ _
        · exact List.mem_cons_of_mem _ h)), (h3 d).mpr hd]
  · intro d hd
    exact h4 d (FD_ISSET_some _ _ _ hd).2
  · intro os
    obtain ⟨evs, h, _⟩ := iteration_facts_ok os st hok
    exact ⟨evs, h⟩

theorem C10_max_sock_witness :
    fds_ok sample_srv.listen_sock sample_srv.sockets = true
    ∧ ∃ b, build_fds sample_srv.listen_sock sample_srv.sockets = some b
      ∧ b.1 ∈ sample_srv.listen_sock.get :: sample_srv.sockets.map Fd.get
      ∧ (∀ d ∈ sample_srv.listen_sock.get :: sample_srv.sockets.map Fd.get, d ≤ b.1)
      ∧ (∀ d, FD_ISSET d b.2 = some true
          ↔ d = sample_srv.listen_sock.get ∨ d ∈ sample_srv.sockets.map Fd.get)
      ∧ (∀ d, FD_ISSET d b.2 = some true → d < b.1 + 1)
      ∧ ∀ os : OS, ∃ evs, (iteration os sample_srv).1.trace
          = sample_srv.trace
            ++ Event.select (b.1 + 1) b.2 (os.select sample_srv.trace (b.1 + 1) b.2).rc :: evs :=
  ⟨by decide, C10_max_sock sample_srv (by decide)⟩

/-- C4: when `select` (reached with every descriptor below `FD_SETSIZE`)
returns -1 with `errno == EINTR` the iteration ends with
the Connection Set unchanged, nothing accepted, nothing read, nothing printed
and no error, and the loop goes on with the next readiness-set build; with any
other `errno` the loop ends by throwing "select() failed: <system error text>".
The failure is fatal exactly when `errno` is not `EINTR`. -/
theorem C4_select_failure (os : OS) (st : Srv)
    (hok : fds_ok st.listen_sock st.sockets = true) (hfail : (select_call os st).rc = -1) :
    ((select_call os st).errno = os.EINTR →
        iteration os st
          = ({ st with trace := st.trace ++ [select_event os st] }, Status.running)
        ∧ (iteration os st).1.sockets = st.sockets
        ∧ accepted (new_events st (iteration os st).1) = []
        ∧ recv_socks (new_events st (iteration os st).1) = []
        ∧ closed (new_events st (iteration os st).1) = []
        ∧ lines (new_events st (iteration os st).1) = []
        ∧ ∀ n, tcp_server_loop os (n + 1) st
            = tcp_server_loop os n { st with trace := st.trace ++ [select_event os st] })
    ∧ ((select_call os st).errno ≠ os.EINTR →
        (iteration os st).2
          = Status.thrown ("select() failed: " ++ os.strerror (select_call os st).errno)
        ∧ (iteration os st).1.sockets = st.sockets
        ∧ new_events st (iteration os st).1 = [select_event os st]
        ∧ ∀ n, tcp_server_loop os (n + 1) st = iteration os st)
    ∧ ((∃ w, (iteration os st).2 = Status.thrown w) ↔ (select_call os st).errno ≠ os.EINTR) := by
  have hit := iteration_select_failed os st hok hfail
  refine ⟨?_, ?_, ?_⟩
  · intro he
    rw [if_pos he] at hit
    refine ⟨hit, ?_, ?_, ?_, ?_, ?_, ?_⟩
    · rw [hit]
    · rw [hit]; simp [new_events, select_event]
    · rw [hit]; simp [new_events, select_event]
    · rw [hit]; simp [new_events, select_event, closed]
    · rw [hit]; simp [new_events, select_event]
    · intro n
      exact loop_succ_running os n st _ hit
  · intro he
    rw [if_neg he] at hit
    refine ⟨?_, ?_, ?_, ?_⟩
    · rw [hit, die_select]
    · rw [hit]
    · rw [hit]; simp [new_events]
    · intro n
      exact loop_succ_stop os n st (by rw [hit]; simp)
  · constructor
    · rintro ⟨w, hw⟩ he
      rw [hit, if_pos he] at hw
      cases hw
    · intro he
      rw [hit, if_neg he]
      exact ⟨_, rfl⟩

theorem C4_select_failure_witness :
    fds_ok sample_srv.listen_sock sample_srv.sockets = true
    ∧ (select_call eintr_os sample_srv).rc = -1
    ∧ ((select_call eintr_os sample_srv).errno = eintr_os.EINTR →
        iteration eintr_os sample_srv
          = ({ sample_srv with trace := sample_srv.trace ++ [select_event eintr_os sample_srv] },
              Status.running)
        ∧ (iteration eintr_os sample_srv).1.sockets = sample_srv.sockets
        ∧ accepted (new_events sample_srv (iteration eintr_os sample_srv).1) = []
        ∧ recv_socks (new_events sample_srv (iteration eintr_os sample_srv).1) = []
        ∧ closed (new_events sample_srv (iteration eintr_os sample_srv).1) = []
        ∧ lines (new_events sample_srv (iteration eintr_os sample_srv).1) = []
        ∧ ∀ n, tcp_server_loop eintr_os (n + 1) sample_srv
            = tcp_server_loop eintr_os n
                { sample_srv with trace := sample_srv.trace ++ [select_event eintr_os sample_srv] })
    ∧ ((select_call eintr_os sample_srv).errno ≠ eintr_os.EINTR →
        (iteration eintr_os sample_srv).2
          = Status.thrown ("select() failed: "
              ++ eintr_os.strerror (select_call eintr_os sample_srv).errno)
        ∧ (iteration eintr_os sample_srv).1.sockets = sample_srv.sockets
        ∧ new_events sample_srv (iteration eintr_os sample_srv).1
            = [select_event eintr_os sample_srv]
        ∧ ∀ n, tcp_server_loop eintr_os (n + 1) sample_srv = iteration eintr_os sample_srv)
    ∧ ((∃ w, (iteration eintr_os sample_srv).2 = Status.thrown w)
        ↔ (select_call eintr_os sample_srv).errno ≠ eintr_os.EINTR) :=
  ⟨by decide, rfl, C4_select_failure eintr_os sample_srv (by decide) rfl⟩

/-- C2 (the code departs from it): a read that fills the buffer is not handled
like a shorter one.  When `recv` returns 4096 bytes the terminator is stored at
index 4096 of `char buf[4096]`, which is not an element of the array. -/
theorem C2_terminator_out_of_bounds :
    FD_ISSET (⟨6⟩ : Fd).get [6] = some true
    ∧ full_os.recv [] 6 BUFSIZE = RecvRet.data (List.replicate 4096 65)
    ∧ recv_rc (full_os.recv [] 6 BUFSIZE) BUFSIZE = 4096
    ∧ (recv_buf (full_os.recv [] 6 BUFSIZE) BUFSIZE (fresh_buf full_os)).length = 4096
    ∧ store (recv_buf (full_os.recv [] 6 BUFSIZE) BUFSIZE (fresh_buf full_os))
        (recv_rc (full_os.recv [] 6 BUFSIZE) BUFSIZE) 0 = none
    ∧ scan_body full_os [6] ⟨⟨3⟩, [⟨6⟩], []⟩ 0 ⟨6⟩
        = (⟨⟨3⟩, [⟨6⟩], [Event.recv 6 4096 4096]⟩, Status.undefined, 0) := by
  have hlen : BUFSIZE ≤ (List.replicate 4096 65).length := by
    rw [List.length_replicate]
    exact Nat.le_refl _
  obtain ⟨h1, h2, h3⟩ := store_full (List.replicate 4096 65) (fresh_buf full_os)
    (fresh_buf_length full_os) hlen
  exact ⟨by decide, rfl, h1, h2, h3,
    scan_body_overflow full_os [6] ⟨⟨3⟩, [⟨6⟩], []⟩ 0 ⟨6⟩ (List.replicate 4096 65)
      (by decide) (by decide) rfl hlen⟩

/-- A read of 1 to 4095 bytes without a zero byte prints exactly one line
holding the bytes verbatim and keeps the peer. -/
theorem scan_body_message_verbatim (os : OS) (fds : fd_set) (st : Srv) (i : Nat) (s : Fd)
    (B : List Nat) (hr : FD_ISSET s.get fds = some true)
    (hv : os.recv st.trace s.get BUFSIZE = RecvRet.data B)
    (hne : B ≠ []) (hlen : B.length < BUFSIZE) (hz : ∀ b ∈ B, b ≠ 0) :
    scan_body os fds st i s
      = ({ st with trace := st.trace ++ [Event.recv s.get BUFSIZE B.length]
                     ++ [Event.out ("Received Msg: `" ++ text B ++ "'")] },
         Status.running, i + 1) := by
  rw [scan_body_message os fds st i s B (FD_ISSET_some _ _ _ hr).1 (FD_ISSET_some _ _ _ hr).2
    hv hne hlen, c_str_no_zero B hz]

theorem accepted_select_event (os : OS) (st : Srv) (l : List Event) :
    accepted (select_event os st :: l) = accepted l := rfl

theorem recv_socks_select_event (os : OS) (st : Srv) (l : List Event) :
    recv_socks (select_event os st :: l) = recv_socks l := rfl

theorem lines_select_event (os : OS) (st : Srv) (l : List Event) :
    lines (select_event os st :: l) = lines l := rfl

/-- Any number of iterations only appends to the trace, keeps the listening
socket, and holds afterwards only peers held before or accepted meanwhile. -/
theorem loop_facts (os : OS) (n : Nat) : ∀ st : Srv,
    ∃ evs, (tcp_server_loop os n st).1.trace = st.trace ++ evs
      ∧ (tcp_server_loop os n st).1.listen_sock = st.listen_sock
      ∧ (∀ x ∈ (tcp_server_loop os n st).1.sockets, x ∈ st.sockets ∨ x.get ∈ accepted evs) := by
  induction n with
  | zero =>
    intro st
    exact ⟨[], by simp [tcp_server_loop], rfl, fun x hx => Or.inl hx⟩
  | succ n ih =>
    intro st
    obtain ⟨evs1, h1, h2, h3, _⟩ := iteration_facts os st
    by_cases hrun : (iteration os st).2 = Status.running
    · have hit : iteration os st = ((iteration os st).1, Status.running) := by
        rw [← hrun]
      rw [loop_succ_running os n st _ hit]
      obtain ⟨evs2, k1, k2, k3⟩ := ih (iteration os st).1
      refine ⟨evs1 ++ evs2, ?_, ?_, ?_⟩
      · rw [k1, h1, List.append_assoc]
      · rw [k2, h2]
      · intro x hx
        rw [accepted_append]
        rcases k3 x hx with hx1 | hx1
        · rcases h3 x hx1 with hx2 | hx2
          · exact Or.inl hx2
          · exact Or.inr (List.mem_append_left _ hx2)
        · exact Or.inr (List.mem_append_right _ hx1)
    · rw [loop_succ_stop os n st hrun]
      exact ⟨evs1, h1, h2, h3⟩

/-- C3: when `recv` on a ready peer returns 0, the pass through the scan body
raises no error, closes that descriptor, prints exactly one
"Closing client connection..." line, and erases exactly that peer, the others
keeping their order; with pairwise distinct descriptors the closed descriptor
is then absent from the Connection Set, and it stays out of the readiness set
built by every later iteration as long as no later `accept` returns it. -/
theorem C3_orderly_shutdown (os : OS) (fds : fd_set) (st : Srv) (pre post : List Fd) (p : Fd)
    (hs : st.sockets = pre ++ p :: post)
    (hnodup : (st.sockets.map Fd.get).Nodup)
    (hlisten : st.listen_sock.get ∉ st.sockets.map Fd.get)
    (hvalid : p.valid = true)
    (hready : FD_ISSET p.get fds = some true)
    (hrecv : os.recv st.trace p.get BUFSIZE = RecvRet.data []) :
    scan_body os fds st pre.length p
      = ({ st with sockets := pre ++ post,
                   trace := st.trace ++ [Event.recv p.get BUFSIZE 0, Event.close p.get,
                     Event.out "Closing client connection..."] },
         Status.running, pre.length)
    ∧ p.get ∉ (pre ++ post).map Fd.get
    ∧ ∀ (fuel n : Nat), post.length < fuel →
        p.get ∉ accepted ((tcp_server_loop os n
            (scan os fds fuel (scan_body os fds st pre.length p).1 pre.length).1).1.trace.drop
              (st.trace.length + 3)) →
        marked p.get (built
            (tcp_server_loop os n
              (scan os fds fuel (scan_body os fds st pre.length p).1 pre.length).1).1.listen_sock
            (tcp_server_loop os n
              (scan os fds fuel (scan_body os fds st pre.length p).1 pre.length).1).1.sockets).2
          = false
        ∧ ∀ b, build_fds
            (tcp_server_loop os n
              (scan os fds fuel (scan_body os fds st pre.length p).1 pre.length).1).1.listen_sock
            (tcp_server_loop os n
              (scan os fds fuel (scan_body os fds st pre.length p).1 pre.length).1).1.sockets
          = some b → FD_ISSET p.get b.2 = some false := by
  have hpok := (FD_ISSET_some _ _ _ hready).1
  have hmark := (FD_ISSET_some _ _ _ hready).2
  have step : ∀ {A B : Prop}, A → (A → B) → A ∧ B := fun a f => ⟨a, f a⟩
  have hbody : scan_body os fds st pre.length p
      = ({ st with sockets := pre ++ post,
                   trace := st.trace ++ [Event.recv p.get BUFSIZE 0, Event.close p.get,
                     Event.out "Closing client connection..."] },
         Status.running, pre.length) := by
    rw [scan_body_shutdown os fds st pre.length p hpok hmark hrecv, hs, vector_erase_spec,
      Fd.reset_closes, if_pos hvalid]
    simp [Fd.get]
  have habsent : p.get ∉ (pre ++ post).map Fd.get := by
    rw [hs] at hnodup
    simp only [List.map_append, List.map_cons] at hnodup
    have h1 := List.nodup_append.mp hnodup
    have h2 := List.nodup_cons.mp h1.2.1
    simp only [List.map_append, List.mem_append, not_or]
    refine ⟨?_, h2.1⟩
    intro hp
    exact h1.2.2 hp (List.mem_cons_self _ _)
  have hne : p.get ≠ st.listen_sock.get := by
    intro h
    apply hlisten
    rw [hs, ← h]
    simp
  refine ⟨hbody, habsent, ?_⟩
  intro fuel n hfuel hacc
  rw [hbody] at hacc ⊢
  obtain ⟨evs1, kept, a1, a2, a3, a4, a5, _⟩ := scan_facts os fds post fuel
    { st with sockets := pre ++ post,
              trace := st.trace ++ [Event.recv p.get BUFSIZE 0, Event.close p.get,
                Event.out "Closing client connection..."] } pre rfl hfuel
  obtain ⟨evs2, b1, b2, b3⟩ := loop_facts os n
    (scan os fds fuel
      { st with sockets := pre ++ post,
                trace := st.trace ++ [Event.recv p.get BUFSIZE 0, Event.close p.get,
                  Event.out "Closing client connection..."] } pre.length).1
  have htr : (tcp_server_loop os n
      (scan os fds fuel
        { st with sockets := pre ++ post,
                  trace := st.trace ++ [Event.recv p.get BUFSIZE 0, Event.close p.get,
                    Event.out "Closing client connection..."] } pre.length).1).1.trace.drop
        (st.trace.length + 3) = evs1 ++ evs2 := by
    rw [b1, a1]
    simp only [List.append_assoc]
    rw [List.drop_append_eq_append_drop]
    simp
  rw [htr, accepted_append, a5, List.nil_append] at hacc
  refine step ?_ ?_
  swap
  · intro hm b hb
    rw [build_fds_eq] at hb
    split at hb
    · cases hb
      rw [FD_ISSET_ok _ _ hpok, hm]
    · cases hb
  cases hset : marked p.get (built _ _).2 with
  | false => rfl
  | true =>
    exfalso
    rcases (marked_built _ _ _).mp hset with h | h
    · rw [b2, a2] at h
      exact hne h
    · obtain ⟨x, hx, hxe⟩ := List.mem_map.mp h
      rcases b3 x hx with hx1 | hx1
      · rw [a3] at hx1
        have hsub : (pre ++ kept).Sublist (pre ++ post) :=
          List.Sublist.append (List.Sublist.refl _) a4
        exact habsent (hxe ▸ List.mem_map_of_mem Fd.get (hsub.subset hx1))
      · rw [hxe] at hx1
        exact hacc hx1

theorem C3_orderly_shutdown_witness :
    sample_srv.sockets = ([] : List Fd) ++ (⟨5⟩ : Fd) :: [⟨6⟩, ⟨8⟩]
    ∧ (sample_srv.sockets.map Fd.get).Nodup
    ∧ sample_srv.listen_sock.get ∉ sample_srv.sockets.map Fd.get
    ∧ (⟨5⟩ : Fd).valid = true
    ∧ FD_ISSET (⟨5⟩ : Fd).get [3, 5, 6] = some true
    ∧ sample_os.recv sample_srv.trace (⟨5⟩ : Fd).get BUFSIZE = RecvRet.data []
    ∧ scan_body sample_os [3, 5, 6] sample_srv ([] : List Fd).length ⟨5⟩
      = ({ sample_srv with
            sockets := ([] : List Fd) ++ [⟨6⟩, ⟨8⟩],
            trace := sample_srv.trace ++ [Event.recv (⟨5⟩ : Fd).get BUFSIZE 0,
              Event.close (⟨5⟩ : Fd).get, Event.out "Closing client connection..."] },
         Status.running, ([] : List Fd).length)
    ∧ (⟨5⟩ : Fd).get ∉ (([] : List Fd) ++ ([⟨6⟩, ⟨8⟩] : List Fd)).map Fd.get
    ∧ ∀ (fuel n : Nat), ([⟨6⟩, ⟨8⟩] : List Fd).length < fuel →
        (⟨5⟩ : Fd).get ∉ accepted ((tcp_server_loop sample_os n
            (scan sample_os [3, 5, 6] fuel
              (scan_body sample_os [3, 5, 6] sample_srv ([] : List Fd).length ⟨5⟩).1
              ([] : List Fd).length).1).1.trace.drop (sample_srv.trace.length + 3)) →
        marked (⟨5⟩ : Fd).get (built
            (tcp_server_loop sample_os n
              (scan sample_os [3, 5, 6] fuel
                (scan_body sample_os [3, 5, 6] sample_srv ([] : List Fd).length ⟨5⟩).1
                ([] : List Fd).length).1).1.listen_sock
            (tcp_server_loop sample_os n
              (scan sample_os [3, 5, 6] fuel
                (scan_body sample_os [3, 5, 6] sample_srv ([] : List Fd).length ⟨5⟩).1
                ([] : List Fd).length).1).1.sockets).2
          = false
        ∧ ∀ b, build_fds
            (tcp_server_loop sample_os n
              (scan sample_os [3, 5, 6] fuel
                (scan_body sample_os [3, 5, 6] sample_srv ([] : List Fd).length ⟨5⟩).1
                ([] : List Fd).length).1).1.listen_sock
            (tcp_server_loop sample_os n
              (scan sample_os [3, 5, 6] fuel
                (scan_body sample_os [3, 5, 6] sample_srv ([] : List Fd).length ⟨5⟩).1
                ([] : List Fd).length).1).1.sockets
          = some b → FD_ISSET (⟨5⟩ : Fd).get b.2 = some false :=
  ⟨rfl, by decide, by decide, by decide, by decide, rfl,
    C3_orderly_shutdown sample_os [3, 5, 6] sample_srv [] [⟨6⟩, ⟨8⟩] ⟨5⟩ rfl (by decide)
      (by decide) (by decide) (by decide) rfl⟩

/-! ## Iterations that only accept -/

theorem recv_failure_fatal_of_clean (os : OS) (base evs : List Event) (r : Srv × Status)
    (hc : no_failed_recv evs) : recv_failure_fatal os base evs r := by
  intro a fd len rc post he hneg
  have := hc fd len rc (by rw [he]; simp)
  omega

theorem recv_failure_fatal_append (os : OS) (base new evs : List Event) (r : Srv × Status)
    (hc : no_failed_recv new) (h : recv_failure_fatal os (base ++ new) evs r) :
    recv_failure_fatal os base (new ++ evs) r := by
  intro a fd len rc post he hneg
  rcases List.append_eq_append_iff.mp he with ⟨a2, ha, hev⟩ | ⟨c, hn, hc2⟩
  · have := h a2 fd len rc post hev hneg
    rw [ha, ← List.append_assoc]
    exact this
  · cases c with
    | nil =>
      simp only [List.nil_append] at hc2
      simp only [List.append_nil] at hn
      have := h [] fd len rc post hc2.symm hneg
      rw [List.append_nil, hn] at this
      exact this
    | cons x c =>
      simp only [List.cons_append, List.cons.injEq] at hc2
      have := hc fd len rc (by rw [hn, ← hc2.1]; simp)
      omega

theorem no_failed_recv_of_running (os : OS) (base evs : List Event) (r : Srv × Status)
    (h : recv_failure_fatal os base evs r) (hrun : r.2 = Status.running) :
    no_failed_recv evs := by
  intro fd len rc hm
  by_contra hneg
  obtain ⟨a, post, he⟩ := List.append_of_mem hm
  have := (h a fd len rc post he (by omega)).2.1
  rw [hrun] at this
  cases this

theorem scan_recv_failure_fatal (os : OS) (fds : fd_set) (rest : List Fd) (fuel : Nat) (st : Srv)
    (pre : List Fd) (hs : st.sockets = pre ++ rest) (hf : rest.length < fuel) :
    ∃ evs, (scan os fds fuel st pre.length).1.trace = st.trace ++ evs
      ∧ recv_failure_fatal os st.trace evs (scan os fds fuel st pre.length) := by
  refine scan_ind os fds
    (fun st _ _ r => ∃ evs, r.1.trace = st.trace ++ evs ∧ recv_failure_fatal os st.trace evs r)
    ?_ ?_ ?_ ?_ ?_ ?_ ?_ rest fuel st pre hs hf
  · intro st
    exact ⟨[], by simp, recv_failure_fatal_of_clean os _ _ _ (by intro fd len rc h; cases h)⟩
  · intro st pre s rest r _ _ _ h
    exact h
  · intro st pre s rest e hs _ hv
    refine ⟨[Event.recv s.get BUFSIZE (-1)], rfl, ?_⟩
    intro a fd len rc post he hneg
    cases a with
    | nil =>
      simp only [List.nil_append, List.cons.injEq, Event.recv.injEq] at he
      obtain ⟨⟨hfd, _, _⟩, hpost⟩ := he
      refine ⟨hpost.symm, ?_, ?_⟩
      · simp only [List.append_nil, ← hfd, hv, recv_errno]
      · show (⟨fd⟩ : Fd) ∈ st.sockets
        rw [hs, ← hfd]
        simp [Fd.get]
    | cons x a =>
      simp only [List.cons_append, List.cons.injEq] at he
      have := congrArg List.length he.2
      simp only [List.length_nil, List.length_append, List.length_cons] at this
      omega
  · intro st pre s rest r _ _ _ _ ⟨evs, h1, h2⟩
    refine ⟨[Event.recv s.get BUFSIZE 0] ++ s.reset.2.map Event.close
        ++ [Event.out "Closing client connection..."] ++ evs, ?_, ?_⟩
    · simpa [List.append_assoc] using h1
    · refine recv_failure_fatal_append os _ _ _ _ ?_ (by simpa [List.append_assoc] using h2)
      intro fd len rc hm
      simp only [List.mem_append, List.mem_singleton, List.mem_map, Event.recv.injEq] at hm
      rcases hm with (⟨_, _, h⟩ | ⟨_, _, h⟩) | h
      · omega
      · cases h
      · cases h
  · intro st pre s rest B r _ _ _ _ _ _ ⟨evs, h1, h2⟩
    refine ⟨[Event.recv s.get BUFSIZE B.length]
        ++ [Event.out ("Received Msg: `" ++ text (c_str B) ++ "'")] ++ evs, ?_, ?_⟩
    · simpa [List.append_assoc] using h1
    · refine recv_failure_fatal_append os _ _ _ _ ?_ (by simpa [List.append_assoc] using h2)
      intro fd len rc hm
      simp only [List.mem_append, List.mem_singleton, Event.recv.injEq] at hm
      rcases hm with ⟨_, _, h⟩ | h
      · omega
      · cases h
  · intro st pre s rest _ _
    exact ⟨[], by simp,
      recv_failure_fatal_of_clean os _ _ _ (by intro fd len rc h; cases h)⟩
  · intro st pre s rest B _ _ _ _
    refine ⟨[Event.recv s.get BUFSIZE BUFSIZE], rfl, recv_failure_fatal_of_clean os _ _ _ ?_⟩
    intro fd len rc hm
    simp only [List.mem_singleton, Event.recv.injEq] at hm
    omega

theorem no_failed_recv_select_event (os : OS) (st : Srv) (l : List Event)
    (h : no_failed_recv l) : no_failed_recv (select_event os st :: l) := by
  intro fd len rc hm
  rcases List.mem_cons.mp hm with h1 | h1
  · cases h1
  · exact h fd len rc h1

theorem iteration_recv_failure_fatal (os : OS) (st : Srv) :
    ∃ evs, (iteration os st).1.trace = st.trace ++ evs
      ∧ recv_failure_fatal os st.trace evs (iteration os st) := by
  have hnil : no_failed_recv [] := by intro fd len rc h; cases h
  by_cases hok : fds_ok st.listen_sock st.sockets = true
  swap
  · have hok2 : fds_ok st.listen_sock st.sockets = false := by simpa using hok
    rw [iteration_out_of_range os st hok2]
    exact ⟨[], by simp, recv_failure_fatal_of_clean os _ _ _ hnil⟩
  by_cases hsel : (select_call os st).rc = -1
  · rw [iteration_select_failed os st hok hsel]
    by_cases he : (select_call os st).errno = os.EINTR
    · rw [if_pos he]
      exact ⟨[select_event os st], rfl,
        recv_failure_fatal_of_clean os _ _ _ (no_failed_recv_select_event os st [] hnil)⟩
    · rw [if_neg he]
      exact ⟨[select_event os st], rfl,
        recv_failure_fatal_of_clean os _ _ _ (no_failed_recv_select_event os st [] hnil)⟩
  · by_cases hl : marked st.listen_sock.get (ready_fds os st) = true
    · rcases Int.lt_or_le (os.accept (st.trace ++ [select_event os st]) st.listen_sock.get).rc 0
        with ha | ha
      · rw [iteration_accept_fail os st hok hsel hl ha]
        refine ⟨[select_event os st, Event.accept st.listen_sock.get
          (os.accept (st.trace ++ [select_event os st]) st.listen_sock.get).rc], by simp,
          recv_failure_fatal_of_clean os _ _ _ (no_failed_recv_select_event os st _ ?_)⟩
        intro fd len rc hm
        simp at hm
      · rw [iteration_accept_ok os st hok hsel hl ha]
        obtain ⟨evs, h1, h2⟩ := scan_recv_failure_fatal os (ready_fds os st)
          (st.sockets
            ++ [⟨(os.accept (st.trace ++ [select_event os st]) st.listen_sock.get).rc⟩])
          (st.sockets.length + 1 + 1)
          { st with
            sockets := st.sockets
              ++ [⟨(os.accept (st.trace ++ [select_event os st]) st.listen_sock.get).rc⟩],
            trace := st.trace ++ [select_event os st]
              ++ [Event.accept st.listen_sock.get
                    (os.accept (st.trace ++ [select_event os st]) st.listen_sock.get).rc,
                  Event.out "Received new connection from client! "] } []
          (List.nil_append _).symm (by simp)
        refine ⟨[select_event os st, Event.accept st.listen_sock.get
            (os.accept (st.trace ++ [select_event os st]) st.listen_sock.get).rc,
            Event.out "Received new connection from client! "] ++ evs, ?_, ?_⟩
        · simpa [List.append_assoc] using h1
        · refine recv_failure_fatal_append os _ _ _ _ (no_failed_recv_select_event os st _ ?_)
            (by simpa [List.append_assoc] using h2)
          intro fd len rc hm
          simp at hm
    · have hl2 : marked st.listen_sock.get (ready_fds os st) = false := by simpa using hl
      rw [iteration_no_accept os st hok hsel hl2]
      obtain ⟨evs, h1, h2⟩ := scan_recv_failure_fatal os (ready_fds os st) st.sockets (st.sockets.length + 1)
        { st with trace := st.trace ++ [select_event os st] } []
        (List.nil_append _).symm (by simp)
      refine ⟨[select_event os st] ++ evs, ?_, ?_⟩
      · simpa [List.append_assoc] using h1
      · exact recv_failure_fatal_append os _ _ _ _ (no_failed_recv_select_event os st [] hnil) h2

theorem loop_recv_failure_fatal (os : OS) (n : Nat) : ∀ st : Srv,
    ∃ evs, (tcp_server_loop os n st).1.trace = st.trace ++ evs
      ∧ recv_failure_fatal os st.trace evs (tcp_server_loop os n st) := by
  induction n with
  | zero =>
    intro st
    exact ⟨[], by simp [tcp_server_loop],
      recv_failure_fatal_of_clean os _ _ _ (by intro fd len rc h; cases h)⟩
  | succ n ih =>
    intro st
    obtain ⟨evs1, h1, h2⟩ := iteration_recv_failure_fatal os st
    by_cases hrun : (iteration os st).2 = Status.running
    · have hit : iteration os st = ((iteration os st).1, Status.running) := by
        rw [← hrun]
      rw [loop_succ_running os n st _ hit]
      obtain ⟨evs2, k1, k2⟩ := ih (iteration os st).1
      refine ⟨evs1 ++ evs2, ?_, ?_⟩
      · rw [k1, h1, List.append_assoc]
      · refine recv_failure_fatal_append os _ _ _ _ (no_failed_recv_of_running os _ _ _ h2 hrun) ?_
        rw [← h1]
        exact k2
    · rw [loop_succ_stop os n st hrun]
      exact ⟨evs1, h1, h2⟩

/-! ## main -/

theorem main_too_few (argv : List String) (run : Callee → String → Outcome)
    (h : argv.length < 3) : main argv run = ⟨usage, [], -1⟩ := by
  simp [main, h]

theorem main_dispatch (argv : List String) (run : Callee → String → Outcome)
    (h : 3 ≤ argv.length) :
    main argv run =
      if (argv.getD 1 "").data.headD (Char.ofNat 0) = 'U' then
        call run Callee.udp_server (argv.getD 2 "")
      else if (argv.getD 1 "").data.headD (Char.ofNat 0) = 'T' then
        call run Callee.tcp_server (argv.getD 2 "")
      else if (argv.getD 1 "").data.headD (Char.ofNat 0) = 'u' then
        call run Callee.udp_client (argv.getD 2 "")
      else if (argv.getD 1 "").data.headD (Char.ofNat 0) = 't' then
        call run Callee.tcp_client (argv.getD 2 "")
      else ⟨usage, [], -1⟩ := by
  unfold main
  rw [if_neg (by omega)]

theorem call_threw (run : Callee → String → Outcome) (c : Callee) (port w : String)
    (h : run c port = Outcome.threw w) :
    call run c port = ⟨["Caught Exception: " ++ w], [(c, port)], -1⟩ := by
  simp [call, h]

theorem caught_recv_text (x : String) :
    "Caught Exception: " ++ ("recv() failed: " ++ x) = "Caught Exception: recv() failed: " ++ x := by
  have h : ("Caught Exception: " ++ "recv() failed: " : String)
      = "Caught Exception: recv() failed: " := by decide
  rw [← String.append_assoc, h]

/-! ## Claims about failures and about main -/

/-- C8: any peer read failure takes down the server.  In any run of the loop,
a `recv` that returns a negative value is the last thing that happens: the loop
has ended by throwing "recv() failed: <system error text>" for the `errno` of
that call, no further peer is serviced, and the peer is still in the Connection
Set.  When that exception reaches `main`, `main` prints the single line
"Caught Exception: recv() failed: <system error text>" and returns -1. -/
theorem C8_recv_failure_fatal (os : OS) (n : Nat) (st : Srv) (a post : List Event)
    (fd : Int) (len : Nat) (rc : Int)
    (htrace : (tcp_server_loop os n st).1.trace = st.trace ++ a ++ Event.recv fd len rc :: post)
    (hneg : rc < 0) :
    post = []
    ∧ (tcp_server_loop os n st).2
        = Status.thrown ("recv() failed: "
            ++ os.strerror (recv_errno (os.recv (st.trace ++ a) fd BUFSIZE)))
    ∧ (⟨fd⟩ : Fd) ∈ (tcp_server_loop os n st).1.sockets
    ∧ ∀ (argv : List String) (run : Callee → String → Outcome),
        3 ≤ argv.length → (argv.getD 1 "").data.headD (Char.ofNat 0) = 'T' →
        some (run Callee.tcp_server (argv.getD 2 "")) = (tcp_server_loop os n st).2.outcome →
        main argv run
          = ⟨["Caught Exception: recv() failed: "
                ++ os.strerror (recv_errno (os.recv (st.trace ++ a) fd BUFSIZE))],
              [(Callee.tcp_server, argv.getD 2 "")], -1⟩ := by
  obtain ⟨evs, h1, h2⟩ := loop_recv_failure_fatal os n st
  have hev : evs = a ++ Event.recv fd len rc :: post := by
    rw [h1, List.append_assoc] at htrace
    exact List.append_cancel_left htrace
  obtain ⟨k1, k2, k3⟩ := h2 a fd len rc post hev hneg
  refine ⟨k1, ?_, k3, ?_⟩
  · rw [k2, die_recv]
  · intro argv run hlen hmode hrun
    rw [k2, die_recv] at hrun
    have hthrew := Option.some.inj hrun
    rw [main_dispatch argv run hlen, hmode, if_neg (by decide), if_pos rfl,
      call_threw run _ _ _ hthrew, caught_recv_text]

theorem C8_recv_failure_fatal_witness :
    (tcp_server_loop failing_os 2 sample_srv).1.trace
      = sample_srv.trace
        ++ [Event.select 9 [8, 6, 5, 3] 3, Event.recv 5 4096 0, Event.close 5,
            Event.out "Closing client connection..."]
        ++ Event.recv 6 4096 (-1) :: []
    ∧ (-1 : Int) < 0
    ∧ ([] : List Event) = []
    ∧ (tcp_server_loop failing_os 2 sample_srv).2
        = Status.thrown ("recv() failed: "
            ++ failing_os.strerror (recv_errno (failing_os.recv (sample_srv.trace
                ++ [Event.select 9 [8, 6, 5, 3] 3, Event.recv 5 4096 0, Event.close 5,
                    Event.out "Closing client connection..."]) 6 BUFSIZE)))
    ∧ (⟨6⟩ : Fd) ∈ (tcp_server_loop failing_os 2 sample_srv).1.sockets
    ∧ ∀ (argv : List String) (run : Callee → String → Outcome),
        3 ≤ argv.length → (argv.getD 1 "").data.headD (Char.ofNat 0) = 'T' →
        some (run Callee.tcp_server (argv.getD 2 ""))
          = (tcp_server_loop failing_os 2 sample_srv).2.outcome →
        main argv run
          = ⟨["Caught Exception: recv() failed: "
                ++ failing_os.strerror (recv_errno (failing_os.recv (sample_srv.trace
                  ++ [Event.select 9 [8, 6, 5, 3] 3, Event.recv 5 4096 0, Event.close 5,
                      Event.out "Closing client connection..."]) 6 BUFSIZE))],
              [(Callee.tcp_server, argv.getD 2 "")], -1⟩ :=
  ⟨by decide, by decide,
    C8_recv_failure_fatal failing_os 2 sample_srv
      [Event.select 9 [8, 6, 5, 3] 3, Event.recv 5 4096 0, Event.close 5,
        Event.out "Closing client connection..."] [] 6 4096 (-1) (by decide) (by decide)⟩

/-- C5 as stated fails: the mode argument "Tx" is none of u, t, U, T, yet
`main` prints no usage text and calls `tcp_server`. -/
theorem C5_counterexample :
    ¬ (("Tx" : String) ∉ ["u", "t", "U", "T"] →
        (main ["net", "Tx", "9999"] (fun _ _ => Outcome.returned 0)).out = usage
        ∧ (main ["net", "Tx", "9999"] (fun _ _ => Outcome.returned 0)).calls = []) := by
  intro h
  have h2 := (h (by decide)).2
  revert h2
  decide

/-- C5, amended: `main` looks at the first character of the mode argument only.
With fewer than 3 arguments, or a mode argument whose first character is none
of u, t, U, T (an empty one included), `main` prints the two-line usage text,
returns -1 and calls none of the four functions; otherwise it calls exactly the
function selected by that character (u: udp_client, t: tcp_client,
U: udp_server, T: tcp_server) with the port argument, once. -/
theorem C5_dispatch_on_first_character (argv : List String) (run : Callee → String → Outcome) :
    ((argv.length < 3 ∨ (argv.getD 1 "").data.headD (Char.ofNat 0) ∉ ['u', 't', 'U', 'T']) →
        main argv run = ⟨usage, [], -1⟩)
    ∧ usage.length = 2
    ∧ (3 ≤ argv.length →
        ((argv.getD 1 "").data.headD (Char.ofNat 0) = 'u' →
          (main argv run).calls = [(Callee.udp_client, argv.getD 2 "")])
        ∧ ((argv.getD 1 "").data.headD (Char.ofNat 0) = 't' →
          (main argv run).calls = [(Callee.tcp_client, argv.getD 2 "")])
        ∧ ((argv.getD 1 "").data.headD (Char.ofNat 0) = 'U' →
          (main argv run).calls = [(Callee.udp_server, argv.getD 2 "")])
        ∧ ((argv.getD 1 "").data.headD (Char.ofNat 0) = 'T' →
          (main argv run).calls = [(Callee.tcp_server, argv.getD 2 "")])) := by
  have hcalls : ∀ c port, (call run c port).calls = [(c, port)] := by
    intro c port
    unfold call
    cases run c port <;> rfl
  refine ⟨?_, rfl, ?_⟩
  · rintro (h | h)
    · exact main_too_few argv run h
    · rcases Nat.lt_or_ge argv.length 3 with hlt | hge
      · exact main_too_few argv run hlt
      · simp only [List.mem_cons, List.mem_singleton, List.not_mem_nil, or_false, not_or] at h
        rw [main_dispatch argv run hge, if_neg h.2.2.1, if_neg h.2.2.2, if_neg h.1, if_neg h.2.1]
  · intro hge
    refine ⟨?_, ?_, ?_, ?_⟩
    · intro hm
      rw [main_dispatch argv run hge, hm, if_neg (by decide), if_neg (by decide), if_pos rfl]
      exact hcalls _ _
    · intro hm
      rw [main_dispatch argv run hge, hm, if_neg (by decide), if_neg (by decide),
        if_neg (by decide), if_pos rfl]
      exact hcalls _ _
    · intro hm
      rw [main_dispatch argv run hge, hm, if_pos rfl]
      exact hcalls _ _
    · intro hm
      rw [main_dispatch argv run hge, hm, if_neg (by decide), if_pos rfl]
      exact hcalls _ _

theorem C5_dispatch_on_first_character_witness :
    main ["net", "X", "9999"] (fun _ _ => Outcome.returned 0) = ⟨usage, [], -1⟩
    ∧ (main ["net", "tcp", "9999"] (fun _ _ => Outcome.returned 0)).calls
        = [(Callee.tcp_client, "9999")] :=
  ⟨(C5_dispatch_on_first_character ["net", "X", "9999"] (fun _ _ => Outcome.returned 0)).1
      (Or.inr (by decide)),
   ((C5_dispatch_on_first_character ["net", "tcp", "9999"] (fun _ _ => Outcome.returned 0)).2.2
      (by decide)).2.1 (by decide)⟩

end Echo
